import Mathlib

/-!
Verification of the match-data aggregation engine of `src/lib/analytics.ts`
(LightLLM/rift-duo-coach).

Numeric model: JavaScript numbers carrying exact integer counts are embedded
as `Nat`; values produced by division are embedded as `ℚ` (floating-point
rounding is abstracted away).  The only divisions in the source whose divisor
can be `0` on a non-empty input are the four `performanceMetrics` divisions;
those are embedded through `jsDiv`, where `none` stands for the non-finite
JavaScript result (`NaN` or `±Infinity`) of dividing by zero.

JavaScript `Array.prototype.sort` is stable (ECMA-262); a stable sort's output
is uniquely determined by the comparator, so it is embedded as
`List.insertionSort` with the corresponding non-strict total preorder, which
is stable in the same sense.  JavaScript `Map` preserves key insertion order
and updates values in place; it is embedded as an association list with
update-in-place-or-append semantics.  `Date` month extraction is embedded in
UTC via the standard civil-from-days calendar algorithm.
-/

set_option maxRecDepth 10000

namespace RiftDuoCoach

/-- Per-player participant record of one match (`participant` sub-object of
`MatchDetails` in `src/lib/match-history`), restricted to the fields the
analytics engine reads. -/
structure Participant where
  championId : Nat
  championName : String
  kills : Nat
  deaths : Nat
  assists : Nat
  win : Bool
  visionScore : Nat
  totalDamageDealt : Nat
  goldEarned : Nat
  totalMinionsKilled : Nat
  role : String
deriving DecidableEq

/-- One match record (`MatchDetails`), restricted to the fields the analytics
engine reads.  `gameCreation` is epoch milliseconds, `gameDuration` seconds. -/
structure MatchDetails where
  matchId : String
  gameCreation : Nat
  gameDuration : Nat
  participant : Participant
deriving DecidableEq

/-- One champion-mastery record (`EnrichedMastery` in `src/lib/types`),
restricted to the fields the analytics engine reads. -/
structure EnrichedMastery where
  championId : Nat
  championLevel : Nat
  championPoints : Nat
deriving DecidableEq

/-- Per-champion statistics (interface `ChampionStat`). -/
structure ChampionStat where
  championId : Nat
  championName : String
  games : Nat
  wins : Nat
  losses : Nat
  winRate : ℚ
  avgKDA : ℚ
  avgKills : ℚ
  avgDeaths : ℚ
  avgAssists : ℚ
  totalPlaytime : ℚ
  masteryLevel : Option Nat
  masteryPoints : Option Nat
deriving DecidableEq

/-- Monthly performance data (interface `MonthlyData`). -/
structure MonthlyData where
  month : String
  games : Nat
  wins : Nat
  losses : Nat
  winRate : ℚ
deriving DecidableEq

/-- Weekly performance data (interface `WeeklyData`). -/
structure WeeklyData where
  week : String
  games : Nat
  wins : Nat
  losses : Nat
  winRate : ℚ
deriving DecidableEq

/-- Kind of a streak (`'win' | 'loss'`). -/
inductive StreakType where
  | win : StreakType
  | loss : StreakType
deriving DecidableEq

/-- Current-streak value (`{ type: 'win' | 'loss'; count: number }`). -/
structure CurrentStreak where
  type : StreakType
  count : Nat
deriving DecidableEq

/-- The `streaks` component of `PlayerAnalytics`. -/
structure StreaksInfo where
  longestWinStreak : Nat
  longestLossStreak : Nat
  currentStreak : CurrentStreak
deriving DecidableEq

/-- The `overview` component of `PlayerAnalytics`. -/
structure Overview where
  totalGames : Nat
  totalWins : Nat
  totalLosses : Nat
  winRate : ℚ
  avgKDA : ℚ
  avgKills : ℚ
  avgDeaths : ℚ
  avgAssists : ℚ
  totalPlaytime : ℚ
deriving DecidableEq

/-- The `temporalTrends` component of `PlayerAnalytics`. -/
structure TemporalTrends where
  monthlyWinRate : List MonthlyData
  weeklyPerformance : List WeeklyData
  bestMonth : String
  worstMonth : String
deriving DecidableEq

/-- The `performanceMetrics` component of `PlayerAnalytics`.  Fields are
`Option ℚ`: `some q` is a finite JavaScript number, `none` a non-finite one
(`NaN`/`±Infinity`, producible only by division by zero). -/
structure PerformanceMetrics where
  avgVisionScore : Option ℚ
  avgDamagePerMinute : Option ℚ
  avgGoldPerMinute : Option ℚ
  avgCSPerMinute : Option ℚ
deriving DecidableEq

/-- The `highlightMatches` component of `PlayerAnalytics`. -/
structure HighlightMatches where
  bestKDA : Option MatchDetails
  mostKills : Option MatchDetails
  longestGame : Option MatchDetails
  highestDamage : Option MatchDetails
deriving DecidableEq

/-- Complete player analytics (interface `PlayerAnalytics`).
`roleDistribution` is a JavaScript object used as a string-keyed counter map,
embedded as an association list in key insertion order. -/
structure PlayerAnalytics where
  overview : Overview
  championStats : List ChampionStat
  temporalTrends : TemporalTrends
  performanceMetrics : PerformanceMetrics
  streaks : StreaksInfo
  roleDistribution : List (String × Nat)
  highlightMatches : HighlightMatches
deriving DecidableEq

/-- Embedding of `calculateKDA` (analytics.ts lines 103-108). -/
def calculateKDA (kills deaths assists : ℚ) : ℚ :=
  if deaths = 0 then kills + assists
  else (kills + assists) / deaths

/-- JavaScript division of finite numbers: finite (`some`) when the divisor is
non-zero, non-finite (`none`, i.e. `NaN` or `±Infinity`) when it is zero. -/
def jsDiv (a b : ℚ) : Option ℚ :=
  if b = 0 then none else some (a / b)

/-- Civil date (year, month 1-12, day 1-31) from a count of days since
1970-01-01, UTC; standard era-based calendar algorithm, embedding what
`new Date(t).getUTCFullYear()/ getUTCMonth()` compute. -/
def civilFromDays (z0 : Nat) : Nat × Nat × Nat :=
  let z := z0 + 719468
  let era := z / 146097
  let doe := z % 146097
  let yoe := (doe - doe / 1460 + doe / 36524 - doe / 146096) / 365
  let y := yoe + era * 400
  let doy := doe - (365 * yoe + yoe / 4 - yoe / 100)
  let mp := (5 * doy + 2) / 153
  let d := doy - (153 * mp + 2) / 5 + 1
  let m := if mp < 10 then mp + 3 else mp - 9
  (if m ≤ 2 then y + 1 else y, m, d)

/-- Days since 1970-01-01 of a civil date (inverse of `civilFromDays`),
used for `new Date(year, 0, 1)`. -/
def daysFromCivil (y m d : Nat) : Nat :=
  let y2 := if m ≤ 2 then y - 1 else y
  let era := y2 / 400
  let yoe := y2 - era * 400
  let doy := (153 * (if 2 < m then m - 3 else m + 9) + 2) / 5 + d - 1
  let doe := yoe * 365 + yoe / 4 - yoe / 100 + doy
  era * 146097 + doe - 719468

/-- Two-digit zero padding: `String(n).padStart(2, '0')`. -/
def pad2 (n : Nat) : String :=
  if n < 10 then "0" ++ toString n else toString n

/-- Embedding of `getMonthString` (analytics.ts lines 113-118): the
`"YYYY-MM"` key of a timestamp in epoch milliseconds. -/
def getMonthString (timestamp : Nat) : String :=
  let c := civilFromDays (timestamp / 86400000)
  toString c.1 ++ "-" ++ pad2 c.2.1

/-- Embedding of `getWeekString` (analytics.ts lines 123-133): the
`"YYYY-Wnn"` key of a timestamp, `nn` being
`ceil((pastDaysOfYear + firstDayOfYear.getDay() + 1) / 7)`. -/
def getWeekString (timestamp : Nat) : String :=
  let year := (civilFromDays (timestamp / 86400000)).1
  let jan1Days := daysFromCivil year 1 1
  let jan1Dow := (jan1Days + 4) % 7
  let num := (timestamp - jan1Days * 86400000) + (jan1Dow + 1) * 86400000
  let weekNumber := (num + 7 * 86400000 - 1) / (7 * 86400000)
  toString year ++ "-W" ++ pad2 weekNumber

/-- One `Map.set` step of a JavaScript `Map`: update the value in place if the
key is present (keeping its insertion position), otherwise append. -/
def mapSet {α : Type} (m : List (Nat × α)) (k : Nat) (v : α) : List (Nat × α) :=
  match m with
  | [] => [(k, v)]
  | (k0, v0) :: rest =>
    if k0 = k then (k, v) :: rest else (k0, v0) :: mapSet rest k v

/-- Lookup in the association-list embedding of a JavaScript `Map`. -/
def mapGet {α : Type} (m : List (Nat × α)) (k : Nat) : Option α :=
  (m.find? (fun e => e.1 == k)).map (·.2)

/-- Embedding of the `masteryMap` construction (analytics.ts lines 189-192). -/
def masteryMapOf (masteries : List EnrichedMastery) : List (Nat × EnrichedMastery) :=
  masteries.foldl (fun acc mastery => mapSet acc mastery.championId mastery) []

/-- Accumulator entry of the `championMap` (analytics.ts lines 212-221). -/
structure ChampAcc where
  championId : Nat
  championName : String
  games : Nat
  wins : Nat
  kills : Nat
  deaths : Nat
  assists : Nat
  playtime : Nat
deriving DecidableEq

/-- Fresh `championMap` entry for a first-encountered champion
(analytics.ts lines 227-236). -/
def newChamp (m : MatchDetails) : ChampAcc :=
  { championId := m.participant.championId
    championName := m.participant.championName
    games := 0, wins := 0, kills := 0, deaths := 0, assists := 0, playtime := 0 }

/-- Mutation step on a `championMap` entry (analytics.ts lines 239-245). -/
def bumpChamp (c : ChampAcc) (m : MatchDetails) : ChampAcc :=
  { c with
    games := c.games + 1
    wins := c.wins + (if m.participant.win then 1 else 0)
    kills := c.kills + m.participant.kills
    deaths := c.deaths + m.participant.deaths
    assists := c.assists + m.participant.assists
    playtime := c.playtime + m.gameDuration }

/-- Processing of one match by the `championMap` loop (analytics.ts lines
223-246): ensure the champion's entry exists (appending a fresh one at the
end on first encounter, as a JavaScript `Map` does), then bump it. -/
def addMatchChamp : List ChampAcc → MatchDetails → List ChampAcc
  | [], m => [bumpChamp (newChamp m) m]
  | c :: rest, m =>
    if c.championId = m.participant.championId then bumpChamp c m :: rest
    else c :: addMatchChamp rest m

/-- The fully accumulated `championMap`, in champion first-encounter order. -/
def champAccums (matchList : List MatchDetails) : List ChampAcc :=
  matchList.foldl addMatchChamp []

/-- Projection of a `championMap` entry to a `ChampionStat` with the optional
mastery join (analytics.ts lines 248-266). -/
def champStatOf (masteryMap : List (Nat × EnrichedMastery)) (c : ChampAcc) : ChampionStat :=
  { championId := c.championId
    championName := c.championName
    games := c.games
    wins := c.wins
    losses := c.games - c.wins
    winRate := ((c.wins : ℚ) / (c.games : ℚ)) * 100
    avgKDA := calculateKDA (c.kills : ℚ) (c.deaths : ℚ) (c.assists : ℚ)
    avgKills := (c.kills : ℚ) / (c.games : ℚ)
    avgDeaths := (c.deaths : ℚ) / (c.games : ℚ)
    avgAssists := (c.assists : ℚ) / (c.games : ℚ)
    totalPlaytime := (c.playtime : ℚ) / 3600
    masteryLevel := (mapGet masteryMap c.championId).map (·.championLevel)
    masteryPoints := (mapGet masteryMap c.championId).map (·.championPoints) }

/-- Descending-by-`games` preorder used by the `championStats` sort
(comparator `(a, b) => b.games - a.games`). -/
def gamesGe (a b : ChampionStat) : Prop := b.games ≤ a.games

instance : DecidableRel gamesGe := fun a b => Nat.decLe b.games a.games

instance : IsTotal ChampionStat gamesGe := ⟨fun a b => Nat.le_total b.games a.games⟩

instance : IsTrans ChampionStat gamesGe := ⟨fun _ _ _ hab hbc => le_trans hbc hab⟩

/-- Embedding of the `championStats` computation (analytics.ts lines 248-267):
map the accumulated `championMap` entries, then stable-sort descending by
`games`. -/
def championStatsOf (matchList : List MatchDetails) (masteries : List EnrichedMastery) :
    List ChampionStat :=
  List.insertionSort gamesGe ((champAccums matchList).map (champStatOf (masteryMapOf masteries)))

/-- Per-match KDA value compared by the highlight scanner. -/
def perMatchKDA (m : MatchDetails) : ℚ :=
  calculateKDA (m.participant.kills : ℚ) (m.participant.deaths : ℚ) (m.participant.assists : ℚ)

/-- Mutable state of the highlight scanner (analytics.ts lines 284-291):
four `(bestSoFar, bestValueSoFar)` pairs, values seeded at `-1`. -/
structure HighlightAcc where
  bestKDA : Option MatchDetails
  bestKDAValue : ℚ
  mostKills : Option MatchDetails
  mostKillsValue : ℚ
  longestGame : Option MatchDetails
  longestGameDuration : ℚ
  highestDamage : Option MatchDetails
  highestDamageValue : ℚ

/-- One iteration of the highlight scanner loop (analytics.ts lines 293-316):
each of the four maxima updates independently on strict `>`. -/
def highlightStep (s : HighlightAcc) (m : MatchDetails) : HighlightAcc :=
  let kda := perMatchKDA m
  let s1 := if kda > s.bestKDAValue then
    { s with bestKDA := some m, bestKDAValue := kda } else s
  let s2 := if ((m.participant.kills : ℚ)) > s1.mostKillsValue then
    { s1 with mostKills := some m, mostKillsValue := (m.participant.kills : ℚ) } else s1
  let s3 := if ((m.gameDuration : ℚ)) > s2.longestGameDuration then
    { s2 with longestGame := some m, longestGameDuration := (m.gameDuration : ℚ) } else s2
  if ((m.participant.totalDamageDealt : ℚ)) > s3.highestDamageValue then
    { s3 with highestDamage := some m, highestDamageValue := (m.participant.totalDamageDealt : ℚ) }
  else s3

/-- The highlight scanner's final state. -/
def highlightAcc (matchList : List MatchDetails) : HighlightAcc :=
  matchList.foldl highlightStep ⟨none, -1, none, -1, none, -1, none, -1⟩

/-- Ascending-by-key preorder for the monthly buckets sort
(comparator `(a, b) => a.month.localeCompare(b.month)`). -/
def monthLe (a b : MonthlyData) : Prop := a.month ≤ b.month

instance : DecidableRel monthLe := fun a b => inferInstanceAs (Decidable (a.month ≤ b.month))

instance : IsTotal MonthlyData monthLe := ⟨fun a b => le_total a.month b.month⟩

instance : IsTrans MonthlyData monthLe := ⟨fun _ _ _ hab hbc => le_trans hab hbc⟩

/-- Ascending-by-key preorder for the weekly buckets sort. -/
def weekLe (a b : WeeklyData) : Prop := a.week ≤ b.week

instance : DecidableRel weekLe := fun a b => inferInstanceAs (Decidable (a.week ≤ b.week))

instance : IsTotal WeeklyData weekLe := ⟨fun a b => le_total a.week b.week⟩

instance : IsTrans WeeklyData weekLe := ⟨fun _ _ _ hab hbc => le_trans hab hbc⟩

/-- Descending-by-`winRate` preorder for the significant-months sort
(comparator `(a, b) => b.winRate - a.winRate`). -/
def winRateGe (a b : MonthlyData) : Prop := b.winRate ≤ a.winRate

instance : DecidableRel winRateGe := fun a b => inferInstanceAs (Decidable (b.winRate ≤ a.winRate))

instance : IsTotal MonthlyData winRateGe := ⟨fun a b => le_total b.winRate a.winRate⟩

instance : IsTrans MonthlyData winRateGe := ⟨fun _ _ _ hab hbc => le_trans hbc hab⟩

/-- One `Map.set`-style step of a string-keyed bucket counter
(`{ games, wins }` per bucket): update in place or append. -/
def bumpBucket (acc : List (String × Nat × Nat)) (key : String) (win : Bool) :
    List (String × Nat × Nat) :=
  match acc with
  | [] => [(key, 1, if win then 1 else 0)]
  | (k, g, w) :: rest =>
    if k = key then (k, g + 1, if win then w + 1 else w) :: rest
    else (k, g, w) :: bumpBucket rest key win

/-- The `monthlyMap` accumulation (analytics.ts lines 370-382), in key
insertion order. -/
def monthAccums (matchList : List MatchDetails) : List (String × Nat × Nat) :=
  matchList.foldl (fun acc m => bumpBucket acc (getMonthString m.gameCreation) m.participant.win) []

/-- The `weeklyMap` accumulation (analytics.ts lines 407-419), in key
insertion order. -/
def weekAccums (matchList : List MatchDetails) : List (String × Nat × Nat) :=
  matchList.foldl (fun acc m => bumpBucket acc (getWeekString m.gameCreation) m.participant.win) []

/-- Bucket-to-`MonthlyData` projection (analytics.ts lines 385-392). -/
def monthDataOf (e : String × Nat × Nat) : MonthlyData :=
  { month := e.1, games := e.2.1, wins := e.2.2, losses := e.2.1 - e.2.2,
    winRate := ((e.2.2 : ℚ) / (e.2.1 : ℚ)) * 100 }

/-- Bucket-to-`WeeklyData` projection (analytics.ts lines 422-429). -/
def weekDataOf (e : String × Nat × Nat) : WeeklyData :=
  { week := e.1, games := e.2.1, wins := e.2.2, losses := e.2.1 - e.2.2,
    winRate := ((e.2.2 : ℚ) / (e.2.1 : ℚ)) * 100 }

/-- The `monthlyWinRate` sequence: mapped buckets stable-sorted ascending by
month key (analytics.ts lines 385-393). -/
def monthlyWinRateOf (matchList : List MatchDetails) : List MonthlyData :=
  List.insertionSort monthLe ((monthAccums matchList).map monthDataOf)

/-- The `weeklyPerformance` sequence (analytics.ts lines 422-430). -/
def weeklyPerformanceOf (matchList : List MatchDetails) : List WeeklyData :=
  List.insertionSort weekLe ((weekAccums matchList).map weekDataOf)

/-- The `significantMonths` filter (analytics.ts line 396): months with at
least 5 games. -/
def significantMonthsOf (matchList : List MatchDetails) : List MonthlyData :=
  (monthlyWinRateOf matchList).filter (fun m => 5 ≤ m.games)

/-- The `sortedByWinRate` list (analytics.ts line 401): significant months
stable-sorted descending by win rate. -/
def sortedSignificantOf (matchList : List MatchDetails) : List MonthlyData :=
  List.insertionSort winRateGe (significantMonthsOf matchList)

/-- `bestMonth` (analytics.ts line 402): head of `sortedByWinRate` when a
significant month exists, else the empty string. -/
def bestMonthOf (matchList : List MatchDetails) : String :=
  if 0 < (significantMonthsOf matchList).length then
    (((sortedSignificantOf matchList).head?).map (fun m => m.month)).getD ""
  else ""

/-- `worstMonth` (analytics.ts line 403): the last element of the same
descending `sortedByWinRate` when a significant month exists, else the empty
string. -/
def worstMonthOf (matchList : List MatchDetails) : String :=
  if 0 < (significantMonthsOf matchList).length then
    (((sortedSignificantOf matchList).getLast?).map (fun m => m.month)).getD ""
  else ""

/-- Embedding of `calculateTemporalTrends` (analytics.ts lines 359-438); the
source computes `bestMonth`/`worstMonth` in one branch on
`significantMonths.length > 0`, split here into the two selectors above with
identical branch conditions. -/
def calculateTemporalTrends (matchList : List MatchDetails) : TemporalTrends :=
  if matchList.length = 0 then
    { monthlyWinRate := [], weeklyPerformance := [], bestMonth := "", worstMonth := "" }
  else
    { monthlyWinRate := monthlyWinRateOf matchList
      weeklyPerformance := weeklyPerformanceOf matchList
      bestMonth := bestMonthOf matchList
      worstMonth := worstMonthOf matchList }

/-- Ascending-by-`gameCreation` preorder for the streak detector's defensive
sort (comparator `(a, b) => a.gameCreation - b.gameCreation`). -/
def creationLe (a b : MatchDetails) : Prop := a.gameCreation ≤ b.gameCreation

instance : DecidableRel creationLe := fun a b => Nat.decLe a.gameCreation b.gameCreation

instance : IsTotal MatchDetails creationLe := ⟨fun a b => Nat.le_total a.gameCreation b.gameCreation⟩

instance : IsTrans MatchDetails creationLe := ⟨fun _ _ _ hab hbc => le_trans hab hbc⟩

/-- Mutable state of the streak scan (analytics.ts lines 458-461). -/
structure StreakAcc where
  longW : Nat
  longL : Nat
  curW : Nat
  curL : Nat
deriving DecidableEq

/-- One iteration of the streak scan (analytics.ts lines 463-473). -/
def streakStep (s : StreakAcc) (win : Bool) : StreakAcc :=
  if win then { longW := max s.longW (s.curW + 1), longL := s.longL, curW := s.curW + 1, curL := 0 }
  else { longW := s.longW, longL := max s.longL (s.curL + 1), curW := 0, curL := s.curL + 1 }

/-- Embedding of `calculateStreaks` (analytics.ts lines 446-485): defensive
stable sort ascending by `gameCreation`, then a single forward scan. -/
def calculateStreaks (matchList : List MatchDetails) : StreaksInfo :=
  if matchList.length = 0 then
    { longestWinStreak := 0, longestLossStreak := 0,
      currentStreak := { type := StreakType.win, count := 0 } }
  else
    let sortedMatches := List.insertionSort creationLe matchList
    let s := (sortedMatches.map (fun m => m.participant.win)).foldl streakStep ⟨0, 0, 0, 0⟩
    { longestWinStreak := s.longW
      longestLossStreak := s.longL
      currentStreak :=
        if 0 < s.curW then { type := StreakType.win, count := s.curW }
        else { type := StreakType.loss, count := s.curL } }

/-- Embedding of `calculateRoleDistribution` (analytics.ts lines 493-502):
a string-keyed counter in key insertion order; a falsy (empty) role label is
normalized to `"UNKNOWN"`. -/
def calculateRoleDistribution (matchList : List MatchDetails) : List (String × Nat) :=
  matchList.foldl
    (fun acc m =>
      let role := if m.participant.role = "" then "UNKNOWN" else m.participant.role
      match mapGetStr acc role with
      | some n => mapSetStr acc role (n + 1)
      | none => mapSetStr acc role 1)
    []
where
  /-- Lookup in a string-keyed association list. -/
  mapGetStr (acc : List (String × Nat)) (k : String) : Option Nat :=
    (acc.find? (fun e => e.1 == k)).map (·.2)
  /-- Update-in-place-or-append on a string-keyed association list. -/
  mapSetStr (acc : List (String × Nat)) (k : String) (v : Nat) : List (String × Nat) :=
    match acc with
    | [] => [(k, v)]
    | (k0, v0) :: rest =>
      if k0 = k then (k, v) :: rest else (k0, v0) :: mapSetStr rest k v

/-- Embedding of `aggregateMatchData` (analytics.ts lines 142-351). -/
def aggregateMatchData (matchList : List MatchDetails) (masteries : List EnrichedMastery) :
    PlayerAnalytics :=
  if matchList.length = 0 then
    { overview :=
        { totalGames := 0, totalWins := 0, totalLosses := 0, winRate := 0, avgKDA := 0,
          avgKills := 0, avgDeaths := 0, avgAssists := 0, totalPlaytime := 0 }
      championStats := []
      temporalTrends :=
        { monthlyWinRate := [], weeklyPerformance := [], bestMonth := "", worstMonth := "" }
      performanceMetrics :=
        { avgVisionScore := some 0, avgDamagePerMinute := some 0,
          avgGoldPerMinute := some 0, avgCSPerMinute := some 0 }
      streaks :=
        { longestWinStreak := 0, longestLossStreak := 0,
          currentStreak := { type := StreakType.win, count := 0 } }
      roleDistribution := []
      highlightMatches :=
        { bestKDA := none, mostKills := none, longestGame := none, highestDamage := none } }
  else
    let totalGames := matchList.length
    let totalWins := (matchList.filter (fun m => m.participant.win)).length
    let totalLosses := totalGames - totalWins
    let winRate : ℚ := if 0 < totalGames then ((totalWins : ℚ) / (totalGames : ℚ)) * 100 else 0
    let totalKills : Nat := (matchList.map (fun m => m.participant.kills)).sum
    let totalDeaths : Nat := (matchList.map (fun m => m.participant.deaths)).sum
    let totalAssists : Nat := (matchList.map (fun m => m.participant.assists)).sum
    let totalDurationSeconds : Nat := (matchList.map (fun m => m.gameDuration)).sum
    let totalVisionScore : Nat := (matchList.map (fun m => m.participant.visionScore)).sum
    let totalDamage : Nat := (matchList.map (fun m => m.participant.totalDamageDealt)).sum
    let totalGold : Nat := (matchList.map (fun m => m.participant.goldEarned)).sum
    let totalCS : Nat := (matchList.map (fun m => m.participant.totalMinionsKilled)).sum
    let totalGameTimeMinutes : ℚ := (totalDurationSeconds : ℚ) / 60
    let h := highlightAcc matchList
    { overview :=
        { totalGames := totalGames
          totalWins := totalWins
          totalLosses := totalLosses
          winRate := winRate
          avgKDA := calculateKDA (totalKills : ℚ) (totalDeaths : ℚ) (totalAssists : ℚ)
          avgKills := (totalKills : ℚ) / (totalGames : ℚ)
          avgDeaths := (totalDeaths : ℚ) / (totalGames : ℚ)
          avgAssists := (totalAssists : ℚ) / (totalGames : ℚ)
          totalPlaytime := (totalDurationSeconds : ℚ) / 3600 }
      championStats := championStatsOf matchList masteries
      temporalTrends := calculateTemporalTrends matchList
      performanceMetrics :=
        { avgVisionScore := jsDiv (totalVisionScore : ℚ) (totalGames : ℚ)
          avgDamagePerMinute := jsDiv (totalDamage : ℚ) totalGameTimeMinutes
          avgGoldPerMinute := jsDiv (totalGold : ℚ) totalGameTimeMinutes
          avgCSPerMinute := jsDiv (totalCS : ℚ) totalGameTimeMinutes }
      streaks := calculateStreaks matchList
      roleDistribution := calculateRoleDistribution matchList
      highlightMatches :=
        { bestKDA := h.bestKDA
          mostKills := h.mostKills
          longestGame := h.longestGame
          highestDamage := h.highestDamage } }

/-! ### Specification-side auxiliary definitions -/

/-- The sub-list of matches played on champion `cid`, in input order. -/
def matchesOfChamp (l : List MatchDetails) (cid : Nat) : List MatchDetails :=
  l.filter (fun m => m.participant.championId == cid)

/-- One step of first-occurrence collection. -/
def occStep (acc : List Nat) (c : Nat) : List Nat :=
  if c ∈ acc then acc else acc ++ [c]

/-- The keys of a list in first-encounter order, each once. -/
def firstOccurrences (l : List Nat) : List Nat :=
  l.foldl occStep []

/-- Length of the maximal constant-`b` run at the end of `l`. -/
def trailingRun (b : Bool) (l : List Bool) : Nat :=
  ((l.reverse).takeWhile (fun x => x == b)).length

/-- Generic single-pass running-maximum scan with strict `>` and seed `-1`,
the shape shared by the four trackers of the highlight scanner. -/
def scanMax (f : MatchDetails → ℚ) (l : List MatchDetails) : Option MatchDetails × ℚ :=
  l.foldl (fun s m => if f m > s.2 then (some m, f m) else s) (none, -1)

/-- Maximum of the values of `l` under `f`, seeded at `-1`. -/
def seededMax (f : MatchDetails → ℚ) (l : List MatchDetails) : ℚ :=
  (l.map f).foldl max (-1)

/-- Ascending-by-`winRate` preorder; used only to state the tie rule asserted
by the specification for `worstMonth` (stable sort by win rate ascending). -/
def winRateLe (a b : MonthlyData) : Prop := a.winRate ≤ b.winRate

instance : DecidableRel winRateLe := fun a b => inferInstanceAs (Decidable (a.winRate ≤ b.winRate))

/-- The `worstMonth` tie rule as the specification words it: the month
appearing first after a stable sort of the significant months by win rate
ascending.  Stated for comparison with the engine's actual rule. -/
def claimWorstMonthRule (matchList : List MatchDetails) : String :=
  let tt := calculateTemporalTrends matchList
  let significantMonths := tt.monthlyWinRate.filter (fun m => 5 ≤ m.games)
  (((List.insertionSort winRateLe significantMonths).head?).map (fun m => m.month)).getD ""

/-! ### Named totals (exact integer sums over the match list) -/

/-- Sum of kills over a match list. -/
def sumKills (ml : List MatchDetails) : Nat := (ml.map (fun m => m.participant.kills)).sum

/-- Sum of deaths over a match list. -/
def sumDeaths (ml : List MatchDetails) : Nat := (ml.map (fun m => m.participant.deaths)).sum

/-- Sum of assists over a match list. -/
def sumAssists (ml : List MatchDetails) : Nat := (ml.map (fun m => m.participant.assists)).sum

/-- Sum of game durations (seconds) over a match list. -/
def sumDuration (ml : List MatchDetails) : Nat := (ml.map (fun m => m.gameDuration)).sum

/-- Sum of vision scores over a match list. -/
def sumVision (ml : List MatchDetails) : Nat :=
  (ml.map (fun m => m.participant.visionScore)).sum

/-- Sum of total damage dealt over a match list. -/
def sumDamage (ml : List MatchDetails) : Nat :=
  (ml.map (fun m => m.participant.totalDamageDealt)).sum

/-- Sum of gold earned over a match list. -/
def sumGold (ml : List MatchDetails) : Nat := (ml.map (fun m => m.participant.goldEarned)).sum

/-- Sum of minions killed (creep score) over a match list. -/
def sumCS (ml : List MatchDetails) : Nat :=
  (ml.map (fun m => m.participant.totalMinionsKilled)).sum

/-- Number of won matches in a match list. -/
def countWins (ml : List MatchDetails) : Nat := (ml.filter (fun m => m.participant.win)).length

/-! ### Concrete example inputs -/

/-- One match with 4 kills, 2 deaths, 6 assists. -/
def exC1m : List MatchDetails :=
  [⟨"m1", 1000, 1800, ⟨1, "Annie", 4, 2, 6, true, 10, 1000, 500, 50, "MID"⟩⟩]

/-- The first (and only) champion entry produced for `exC1m`. -/
def exC1stat : ChampionStat :=
  (((aggregateMatchData exC1m []).championStats).head?).getD
    (champStatOf [] ⟨0, "", 0, 0, 0, 0, 0, 0⟩)

/-- Four matches supplied out of chronological order; sorted by
`gameCreation` their win flags read W, W, L, W. -/
def exC4m : List MatchDetails :=
  [⟨"c4-l3", 300, 1000, ⟨1, "A", 0, 1, 0, false, 0, 0, 0, 0, "MID"⟩⟩,
   ⟨"c4-w1", 100, 1000, ⟨1, "A", 3, 0, 2, true, 0, 0, 0, 0, "MID"⟩⟩,
   ⟨"c4-w4", 400, 1000, ⟨1, "A", 2, 1, 1, true, 0, 0, 0, 0, "MID"⟩⟩,
   ⟨"c4-w2", 200, 1000, ⟨1, "A", 1, 0, 0, true, 0, 0, 0, 0, "MID"⟩⟩]

/-- Ten matches: five in January 2024 (2 wins) and five in February 2024
(2 wins), so both months are significant and tie at 40% win rate. -/
def exC5m : List MatchDetails :=
  [⟨"j1", 19723 * 86400000, 1800, ⟨1, "A", 1, 1, 1, true, 0, 0, 0, 0, "MID"⟩⟩,
   ⟨"j2", 19724 * 86400000, 1800, ⟨1, "A", 1, 1, 1, true, 0, 0, 0, 0, "MID"⟩⟩,
   ⟨"j3", 19725 * 86400000, 1800, ⟨1, "A", 1, 1, 1, false, 0, 0, 0, 0, "MID"⟩⟩,
   ⟨"j4", 19726 * 86400000, 1800, ⟨1, "A", 1, 1, 1, false, 0, 0, 0, 0, "MID"⟩⟩,
   ⟨"j5", 19727 * 86400000, 1800, ⟨1, "A", 1, 1, 1, false, 0, 0, 0, 0, "MID"⟩⟩,
   ⟨"f1", 19754 * 86400000, 1800, ⟨1, "A", 1, 1, 1, true, 0, 0, 0, 0, "MID"⟩⟩,
   ⟨"f2", 19755 * 86400000, 1800, ⟨1, "A", 1, 1, 1, true, 0, 0, 0, 0, "MID"⟩⟩,
   ⟨"f3", 19756 * 86400000, 1800, ⟨1, "A", 1, 1, 1, false, 0, 0, 0, 0, "MID"⟩⟩,
   ⟨"f4", 19757 * 86400000, 1800, ⟨1, "A", 1, 1, 1, false, 0, 0, 0, 0, "MID"⟩⟩,
   ⟨"f5", 19758 * 86400000, 1800, ⟨1, "A", 1, 1, 1, false, 0, 0, 0, 0, "MID"⟩⟩]

/-- Two matches sharing the highest kill count (7), the earlier one first. -/
def exC6m : List MatchDetails :=
  [⟨"k-early", 100, 1200, ⟨1, "A", 7, 2, 1, true, 10, 5000, 800, 30, "TOP"⟩⟩,
   ⟨"k-late", 200, 1500, ⟨2, "B", 7, 0, 4, false, 20, 9000, 900, 40, "MID"⟩⟩]

/-- Matches on champions 1 and 2. -/
def exC9m : List MatchDetails :=
  [⟨"n1", 100, 1800, ⟨1, "Annie", 2, 1, 3, true, 10, 1000, 500, 50, "MID"⟩⟩,
   ⟨"n2", 200, 1800, ⟨2, "Ahri", 4, 2, 6, false, 12, 1100, 600, 60, "MID"⟩⟩]

/-- A mastery record for champion 1 only. -/
def exC9s : List EnrichedMastery := [⟨1, 7, 250000⟩]

/-- The accumulator entry for champion 1 over `exC9m`. -/
def exC9accA : ChampAcc := ⟨1, "Annie", 1, 1, 2, 1, 3, 1800⟩

/-- The accumulator entry for champion 2 over `exC9m`. -/
def exC9accB : ChampAcc := ⟨2, "Ahri", 1, 0, 4, 2, 6, 1800⟩

/-- The champion-1 entry produced for `exC9m`. -/
def exC9statA : ChampionStat := champStatOf (masteryMapOf exC9s) exC9accA

/-- The champion-2 entry produced for `exC9m`; champion 2 has no mastery
record. -/
def exC9statB : ChampionStat := champStatOf (masteryMapOf exC9s) exC9accB

/-- One data-model-conforming match whose `gameDuration` is `0` (the model
allows any integer `≥ 0`), with non-zero damage, gold and creep score. -/
def exC10m : List MatchDetails :=
  [⟨"zero-dur", 100, 0, ⟨1, "A", 1, 0, 0, true, 2, 1000, 300, 10, "MID"⟩⟩]

/-! ### Generic lemmas about the stable sort and the maps -/

theorem filter_insertionSort (r : α → α → Prop) [DecidableRel r] (p : α → Bool)
    (hrp : ∀ a b, p a = true → ¬r a b → p b = false) :
    ∀ l : List α, (List.insertionSort r l).filter p = l.filter p := by
  intro l
  induction l with
  | nil => rfl
  | cons a t ih =>
    have hunf : List.insertionSort r (a :: t) =
        List.orderedInsert r a (List.insertionSort r t) := rfl
    rw [hunf, List.orderedInsert_eq_take_drop, List.filter_append]
    by_cases hpa : p a = true
    · have htw : (List.takeWhile (fun b => decide ¬r a b) (List.insertionSort r t)).filter p
          = [] := by
        rw [List.filter_eq_nil_iff]
        intro b hb
        have hd := List.mem_takeWhile_imp hb
        have hnr : ¬r a b := of_decide_eq_true hd
        simp [hrp a b hpa hnr]
      have hsplit : (List.insertionSort r t).filter p =
          (List.dropWhile (fun b => decide ¬r a b) (List.insertionSort r t)).filter p := by
        conv_lhs =>
          rw [← List.takeWhile_append_dropWhile (fun b => decide ¬r a b)
            (List.insertionSort r t)]
        rw [List.filter_append, htw, List.nil_append]
      rw [htw, List.nil_append, List.filter_cons, if_pos hpa, ← hsplit, ih,
        List.filter_cons, if_pos hpa]
    · have hpa2 : p a = false := by
        cases h : p a
        · rfl
        · exact absurd h hpa
      have hsplit : (List.insertionSort r t).filter p =
          (List.takeWhile (fun b => decide ¬r a b) (List.insertionSort r t)).filter p ++
          (List.dropWhile (fun b => decide ¬r a b) (List.insertionSort r t)).filter p := by
        conv_lhs =>
          rw [← List.takeWhile_append_dropWhile (fun b => decide ¬r a b)
            (List.insertionSort r t)]
        rw [List.filter_append]
      rw [List.filter_cons, if_neg (by simp [hpa2]), ← hsplit, ih, List.filter_cons,
        if_neg (by simp [hpa2])]

theorem foldl_occStep_mem (l : List Nat) :
    ∀ (acc : List Nat) (x : Nat), x ∈ l.foldl occStep acc ↔ x ∈ acc ∨ x ∈ l := by
  induction l with
  | nil => intro acc x; simp
  | cons c t ih =>
    intro acc x
    rw [List.foldl_cons, ih]
    unfold occStep
    by_cases hc : c ∈ acc
    · rw [if_pos hc]
      constructor
      · rintro (h | h)
        · exact Or.inl h
        · exact Or.inr (List.mem_cons_of_mem c h)
      · rintro (h | h)
        · exact Or.inl h
        · rcases List.mem_cons.mp h with rfl | h2
          · exact Or.inl hc
          · exact Or.inr h2
    · rw [if_neg hc]
      simp only [List.mem_append, List.mem_singleton, List.mem_cons]
      tauto

theorem foldl_occStep_nodup (l : List Nat) :
    ∀ acc : List Nat, acc.Nodup → (l.foldl occStep acc).Nodup := by
  induction l with
  | nil => intro acc h; exact h
  | cons c t ih =>
    intro acc h
    rw [List.foldl_cons]
    refine ih _ ?_
    unfold occStep
    by_cases hc : c ∈ acc
    · rw [if_pos hc]; exact h
    · rw [if_neg hc, ← List.concat_eq_append]
      exact List.Nodup.concat hc h

theorem firstOccurrences_mem (l : List Nat) (x : Nat) :
    x ∈ firstOccurrences l ↔ x ∈ l := by
  rw [firstOccurrences, foldl_occStep_mem]
  simp

theorem firstOccurrences_nodup (l : List Nat) : (firstOccurrences l).Nodup :=
  foldl_occStep_nodup l [] List.nodup_nil

/-! ### Characterization of the champion accumulator -/

theorem bumpChamp_championId (c : ChampAcc) (m : MatchDetails) :
    (bumpChamp c m).championId = c.championId := rfl

theorem addMatchChamp_ids (m : MatchDetails) : ∀ A : List ChampAcc,
    (addMatchChamp A m).map (fun c => c.championId) =
      occStep (A.map (fun c => c.championId)) m.participant.championId := by
  intro A
  induction A with
  | nil => simp [addMatchChamp, occStep, bumpChamp, newChamp]
  | cons c rest ih =>
    rw [addMatchChamp]
    by_cases hc : c.championId = m.participant.championId
    · rw [if_pos hc]
      unfold occStep
      rw [if_pos (by simp [List.mem_cons, hc.symm])]
      simp [bumpChamp_championId, hc]
    · rw [if_neg hc, List.map_cons, ih]
      unfold occStep
      by_cases hmem : m.participant.championId ∈ rest.map (fun c => c.championId)
      · rw [if_pos hmem, if_pos (by simp [List.mem_cons, hmem]), List.map_cons]
      · rw [if_neg hmem,
          if_neg (by
            rw [List.map_cons, List.mem_cons]
            rintro (h1 | h2)
            · exact hc h1.symm
            · exact hmem h2),
          List.map_cons, List.cons_append]

theorem champAccums_ids_aux (l : List MatchDetails) : ∀ A : List ChampAcc,
    (l.foldl addMatchChamp A).map (fun c => c.championId) =
      (l.map (fun m => m.participant.championId)).foldl occStep
        (A.map (fun c => c.championId)) := by
  induction l with
  | nil => intro A; rfl
  | cons m t ih =>
    intro A
    rw [List.foldl_cons, List.map_cons, List.foldl_cons, ih, addMatchChamp_ids]

/-- The champion accumulator lists champion ids in first-encounter order. -/
theorem champAccums_ids (l : List MatchDetails) :
    (champAccums l).map (fun c => c.championId) =
      firstOccurrences (l.map (fun m => m.participant.championId)) := by
  rw [champAccums, champAccums_ids_aux, firstOccurrences]
  rfl

theorem champAccums_ids_nodup (l : List MatchDetails) :
    ((champAccums l).map (fun c => c.championId)).Nodup := by
  rw [champAccums_ids]; exact firstOccurrences_nodup _

theorem mem_addMatchChamp {m : MatchDetails} {c' : ChampAcc} : ∀ {A : List ChampAcc},
    (A.map (fun c => c.championId)).Nodup → c' ∈ addMatchChamp A m →
    (∃ c ∈ A, c.championId = m.participant.championId ∧ c' = bumpChamp c m) ∨
    (c' ∈ A ∧ c'.championId ≠ m.participant.championId) ∨
    (m.participant.championId ∉ A.map (fun c => c.championId) ∧
      c' = bumpChamp (newChamp m) m) := by
  intro A
  induction A with
  | nil =>
    intro _ h
    rw [addMatchChamp, List.mem_singleton] at h
    exact Or.inr (Or.inr ⟨by simp, h⟩)
  | cons c rest ih =>
    intro hnd h
    rw [List.map_cons, List.nodup_cons] at hnd
    obtain ⟨hcid, hndr⟩ := hnd
    rw [addMatchChamp] at h
    by_cases hc : c.championId = m.participant.championId
    · rw [if_pos hc] at h
      rcases List.mem_cons.mp h with rfl | hmem
      · exact Or.inl ⟨c, List.mem_cons_self c rest, hc, rfl⟩
      · refine Or.inr (Or.inl ⟨List.mem_cons_of_mem c hmem, ?_⟩)
        intro heq
        apply hcid
        rw [hc, ← heq]
        exact List.mem_map_of_mem (fun c => c.championId) hmem
    · rw [if_neg hc] at h
      rcases List.mem_cons.mp h with rfl | hmem
      · exact Or.inr (Or.inl ⟨List.mem_cons_self c' rest, hc⟩)
      · rcases ih hndr hmem with ⟨c0, hc0, hid, heq⟩ | ⟨hmem2, hne⟩ | ⟨hnotin, heq⟩
        · exact Or.inl ⟨c0, List.mem_cons_of_mem c hc0, hid, heq⟩
        · exact Or.inr (Or.inl ⟨List.mem_cons_of_mem c hmem2, hne⟩)
        · refine Or.inr (Or.inr ⟨?_, heq⟩)
          rw [List.map_cons, List.mem_cons]
          rintro (h1 | h2)
          · exact hc h1.symm
          · exact hnotin h2

theorem matchesOfChamp_concat (l : List MatchDetails) (m : MatchDetails) (cid : Nat) :
    matchesOfChamp (l ++ [m]) cid =
      matchesOfChamp l cid ++ (if m.participant.championId = cid then [m] else []) := by
  rw [matchesOfChamp, List.filter_append, matchesOfChamp]
  congr 1
  by_cases h : m.participant.championId = cid
  · have hb : (m.participant.championId == cid) = true := beq_iff_eq.mpr h
    simp [List.filter, hb, h]
  · have hb : (m.participant.championId == cid) = false := beq_eq_false_iff_ne.mpr h
    simp [List.filter, hb, h]

/-- Every entry of the champion accumulator carries exactly the totals of the
matches played on its champion. -/
theorem champAccums_fields (l : List MatchDetails) :
    ∀ c ∈ champAccums l,
      c.games = (matchesOfChamp l c.championId).length ∧
      c.wins = ((matchesOfChamp l c.championId).filter (fun m => m.participant.win)).length ∧
      c.kills = ((matchesOfChamp l c.championId).map (fun m => m.participant.kills)).sum ∧
      c.deaths = ((matchesOfChamp l c.championId).map (fun m => m.participant.deaths)).sum ∧
      c.assists = ((matchesOfChamp l c.championId).map (fun m => m.participant.assists)).sum ∧
      c.playtime = ((matchesOfChamp l c.championId).map (fun m => m.gameDuration)).sum := by
  induction l using List.reverseRecOn with
  | nil => intro c hc; exact absurd hc (by simp [champAccums])
  | append_singleton l m ih =>
    intro c' hc'
    have hstep : champAccums (l ++ [m]) = addMatchChamp (champAccums l) m := by
      rw [champAccums, champAccums, List.foldl_concat]
    rw [hstep] at hc'
    rcases mem_addMatchChamp (champAccums_ids_nodup l) hc' with
      ⟨c, hcA, hid, rfl⟩ | ⟨hmem, hne⟩ | ⟨hnotin, rfl⟩
    · obtain ⟨hg, hw, hk, hd, ha, hp⟩ := ih c hcA
      have hmc : matchesOfChamp (l ++ [m]) (bumpChamp c m).championId =
          matchesOfChamp l c.championId ++ [m] := by
        rw [bumpChamp_championId, matchesOfChamp_concat, if_pos hid.symm]
      rw [hmc]
      refine ⟨?_, ?_, ?_, ?_, ?_, ?_⟩
      · simp [bumpChamp, hg]
      · simp only [bumpChamp, List.filter_append, List.length_append, hw]
        cases h : m.participant.win <;> simp [List.filter, h]
      · simp [bumpChamp, hk]
      · simp [bumpChamp, hd]
      · simp [bumpChamp, ha]
      · simp [bumpChamp, hp]
    · have hmc : matchesOfChamp (l ++ [m]) c'.championId = matchesOfChamp l c'.championId := by
        rw [matchesOfChamp_concat, if_neg (fun h => hne h.symm), List.append_nil]
      rw [hmc]
      exact ih c' hmem
    · have hid : (bumpChamp (newChamp m) m).championId = m.participant.championId := rfl
      have hempty : matchesOfChamp l m.participant.championId = [] := by
        rw [matchesOfChamp, List.filter_eq_nil_iff]
        intro m' hm'
        simp only [beq_iff_eq]
        intro heq
        apply hnotin
        rw [champAccums_ids, firstOccurrences_mem]
        rw [← heq]
        exact List.mem_map_of_mem (fun m => m.participant.championId) hm'
      have hmc : matchesOfChamp (l ++ [m]) (bumpChamp (newChamp m) m).championId = [m] := by
        rw [hid, matchesOfChamp_concat, hempty, if_pos rfl, List.nil_append]
      rw [hmc]
      refine ⟨?_, ?_, ?_, ?_, ?_, ?_⟩
      · simp [bumpChamp, newChamp]
      · cases h : m.participant.win <;> simp [bumpChamp, newChamp, List.filter, h]
      · simp [bumpChamp, newChamp]
      · simp [bumpChamp, newChamp]
      · simp [bumpChamp, newChamp]
      · simp [bumpChamp, newChamp]

theorem addMatchChamp_games_sum (m : MatchDetails) : ∀ A : List ChampAcc,
    ((addMatchChamp A m).map (fun c => c.games)).sum = (A.map (fun c => c.games)).sum + 1 := by
  intro A
  induction A with
  | nil => simp [addMatchChamp, bumpChamp, newChamp]
  | cons c rest ih =>
    rw [addMatchChamp]
    by_cases hc : c.championId = m.participant.championId
    · rw [if_pos hc]
      simp only [List.map_cons, List.sum_cons, bumpChamp]
      omega
    · rw [if_neg hc]
      simp only [List.map_cons, List.sum_cons, ih]
      omega

/-- The `games` fields of the champion accumulator sum to the number of
matches: grouping by champion id partitions the matches. -/
theorem champAccums_games_sum (l : List MatchDetails) :
    ((champAccums l).map (fun c => c.games)).sum = l.length := by
  induction l using List.reverseRecOn with
  | nil => rfl
  | append_singleton l m ih =>
    rw [champAccums, List.foldl_concat, ← champAccums, addMatchChamp_games_sum, ih,
      List.length_append, List.length_singleton]

/-! ### Projection lemmas for `aggregateMatchData` -/

theorem aggregate_championStats (ml : List MatchDetails) (ms : List EnrichedMastery) :
    (aggregateMatchData ml ms).championStats = championStatsOf ml ms := by
  by_cases h : ml.length = 0
  · have h2 : ml = [] := List.length_eq_zero.mp h
    subst h2
    rfl
  · simp only [aggregateMatchData, if_neg h]

theorem aggregate_streaks (ml : List MatchDetails) (ms : List EnrichedMastery) :
    (aggregateMatchData ml ms).streaks = calculateStreaks ml := by
  by_cases h : ml.length = 0
  · have h2 : ml = [] := List.length_eq_zero.mp h
    subst h2
    rfl
  · simp only [aggregateMatchData, calculateStreaks, if_neg h]

theorem aggregate_temporalTrends (ml : List MatchDetails) (ms : List EnrichedMastery) :
    (aggregateMatchData ml ms).temporalTrends = calculateTemporalTrends ml := by
  by_cases h : ml.length = 0
  · have h2 : ml = [] := List.length_eq_zero.mp h
    subst h2
    rfl
  · simp only [aggregateMatchData, calculateTemporalTrends, if_neg h]

theorem aggregate_highlights (ml : List MatchDetails) (ms : List EnrichedMastery) :
    (aggregateMatchData ml ms).highlightMatches =
      { bestKDA := (highlightAcc ml).bestKDA
        mostKills := (highlightAcc ml).mostKills
        longestGame := (highlightAcc ml).longestGame
        highestDamage := (highlightAcc ml).highestDamage } := by
  by_cases h : ml.length = 0
  · have h2 : ml = [] := List.length_eq_zero.mp h
    subst h2
    rfl
  · simp only [aggregateMatchData, if_neg h]

theorem aggregate_overview (ml : List MatchDetails) (ms : List EnrichedMastery)
    (h : ml.length ≠ 0) :
    (aggregateMatchData ml ms).overview =
      { totalGames := ml.length
        totalWins := countWins ml
        totalLosses := ml.length - countWins ml
        winRate := if 0 < ml.length then ((countWins ml : ℚ) / (ml.length : ℚ)) * 100 else 0
        avgKDA := calculateKDA (sumKills ml : ℚ) (sumDeaths ml : ℚ) (sumAssists ml : ℚ)
        avgKills := (sumKills ml : ℚ) / (ml.length : ℚ)
        avgDeaths := (sumDeaths ml : ℚ) / (ml.length : ℚ)
        avgAssists := (sumAssists ml : ℚ) / (ml.length : ℚ)
        totalPlaytime := (sumDuration ml : ℚ) / 3600 } := by
  simp only [aggregateMatchData, if_neg h]
  rfl

theorem aggregate_performanceMetrics (ml : List MatchDetails) (ms : List EnrichedMastery)
    (h : ml.length ≠ 0) :
    (aggregateMatchData ml ms).performanceMetrics =
      { avgVisionScore := jsDiv (sumVision ml : ℚ) (ml.length : ℚ)
        avgDamagePerMinute := jsDiv (sumDamage ml : ℚ) ((sumDuration ml : ℚ) / 60)
        avgGoldPerMinute := jsDiv (sumGold ml : ℚ) ((sumDuration ml : ℚ) / 60)
        avgCSPerMinute := jsDiv (sumCS ml : ℚ) ((sumDuration ml : ℚ) / 60) } := by
  simp only [aggregateMatchData, if_neg h]
  rfl

theorem highlightStep_bestKDA (s : HighlightAcc) (m : MatchDetails) :
    (highlightStep s m).bestKDA =
      if perMatchKDA m > s.bestKDAValue then some m else s.bestKDA := by
  unfold highlightStep
  dsimp only
  split_ifs <;> rfl

theorem highlightStep_bestKDAValue (s : HighlightAcc) (m : MatchDetails) :
    (highlightStep s m).bestKDAValue =
      if perMatchKDA m > s.bestKDAValue then perMatchKDA m else s.bestKDAValue := by
  unfold highlightStep
  dsimp only
  split_ifs <;> rfl

theorem highlightStep_mostKills (s : HighlightAcc) (m : MatchDetails) :
    (highlightStep s m).mostKills =
      if (m.participant.kills : ℚ) > s.mostKillsValue then some m else s.mostKills := by
  unfold highlightStep
  dsimp only
  split_ifs <;> rfl

theorem highlightStep_mostKillsValue (s : HighlightAcc) (m : MatchDetails) :
    (highlightStep s m).mostKillsValue =
      if (m.participant.kills : ℚ) > s.mostKillsValue then (m.participant.kills : ℚ)
      else s.mostKillsValue := by
  unfold highlightStep
  dsimp only
  split_ifs <;> rfl

theorem highlightStep_longestGame (s : HighlightAcc) (m : MatchDetails) :
    (highlightStep s m).longestGame =
      if (m.gameDuration : ℚ) > s.longestGameDuration then some m else s.longestGame := by
  unfold highlightStep
  dsimp only
  split_ifs <;> rfl

theorem highlightStep_longestGameDuration (s : HighlightAcc) (m : MatchDetails) :
    (highlightStep s m).longestGameDuration =
      if (m.gameDuration : ℚ) > s.longestGameDuration then (m.gameDuration : ℚ)
      else s.longestGameDuration := by
  unfold highlightStep
  dsimp only
  split_ifs <;> rfl

theorem highlightStep_highestDamage (s : HighlightAcc) (m : MatchDetails) :
    (highlightStep s m).highestDamage =
      if (m.participant.totalDamageDealt : ℚ) > s.highestDamageValue then some m
      else s.highestDamage := by
  unfold highlightStep
  dsimp only
  split_ifs <;> rfl

theorem highlightStep_highestDamageValue (s : HighlightAcc) (m : MatchDetails) :
    (highlightStep s m).highestDamageValue =
      if (m.participant.totalDamageDealt : ℚ) > s.highestDamageValue then
        (m.participant.totalDamageDealt : ℚ)
      else s.highestDamageValue := by
  unfold highlightStep
  dsimp only
  split_ifs <;> rfl

theorem mem_championStatsOf (ml : List MatchDetails) (ms : List EnrichedMastery)
    (c : ChampionStat) :
    c ∈ championStatsOf ml ms ↔
      c ∈ (champAccums ml).map (champStatOf (masteryMapOf ms)) := by
  rw [championStatsOf]
  exact (List.perm_insertionSort gamesGe _).mem_iff

/-! ### Claim theorems -/

/-- C1: the engine's KDA function returns `kills + assists` when `deaths = 0`
and `(kills + assists) / deaths` otherwise; the same single function is
applied to the summed totals for the overview aggregate KDA, to each
champion's summed totals for the per-champion `avgKDA`, and per match inside
the highlight scan; `KDA(0,0,0) = 0`, `KDA(5,0,3) = 8`, `KDA(4,2,6) = 5`. -/
theorem c1_kda_formula :
    (∀ k a : Nat, calculateKDA (k : ℚ) 0 (a : ℚ) = (k : ℚ) + (a : ℚ)) ∧
    (∀ k d a : Nat, d ≠ 0 →
      calculateKDA (k : ℚ) (d : ℚ) (a : ℚ) = ((k : ℚ) + (a : ℚ)) / (d : ℚ)) ∧
    (∀ (ml : List MatchDetails) (ms : List EnrichedMastery), ml.length ≠ 0 →
      (aggregateMatchData ml ms).overview.avgKDA =
        calculateKDA (sumKills ml : ℚ) (sumDeaths ml : ℚ) (sumAssists ml : ℚ)) ∧
    (∀ (ml : List MatchDetails) (ms : List EnrichedMastery) (c : ChampionStat),
      c ∈ (aggregateMatchData ml ms).championStats →
      c.avgKDA = calculateKDA (sumKills (matchesOfChamp ml c.championId) : ℚ)
        (sumDeaths (matchesOfChamp ml c.championId) : ℚ)
        (sumAssists (matchesOfChamp ml c.championId) : ℚ)) ∧
    (∀ (s : HighlightAcc) (m : MatchDetails), (highlightStep s m).bestKDA =
      if calculateKDA (m.participant.kills : ℚ) (m.participant.deaths : ℚ)
          (m.participant.assists : ℚ) > s.bestKDAValue then some m else s.bestKDA) ∧
    (calculateKDA 0 0 0 = 0 ∧ calculateKDA 5 0 3 = 8 ∧ calculateKDA 4 2 6 = 5) := by
  refine ⟨?_, ?_, ?_, ?_, ?_, by norm_num [calculateKDA], by norm_num [calculateKDA],
    by norm_num [calculateKDA]⟩
  · intro k a
    simp [calculateKDA]
  · intro k d a hd
    rw [calculateKDA, if_neg (by exact_mod_cast hd)]
  · intro ml ms h
    rw [aggregate_overview ml ms h]
  · intro ml ms c hc
    rw [aggregate_championStats] at hc
    rw [mem_championStatsOf] at hc
    obtain ⟨acc, hacc, rfl⟩ := List.mem_map.mp hc
    obtain ⟨-, -, hk, hd, ha, -⟩ := champAccums_fields ml acc hacc
    show calculateKDA (acc.kills : ℚ) (acc.deaths : ℚ) (acc.assists : ℚ) = _
    have hcid : (champStatOf (masteryMapOf ms) acc).championId = acc.championId := rfl
    rw [hcid, hk, hd, ha]
    rfl
  · intro s m
    exact highlightStep_bestKDA s m

/-- Witness for C1 at concrete inputs: the normal branch at `(4, 2, 6)`, the
overview reuse and the per-champion reuse on a one-match list. -/
theorem c1_kda_formula_witness :
    calculateKDA ((4 : Nat) : ℚ) ((2 : Nat) : ℚ) ((6 : Nat) : ℚ) =
      (((4 : Nat) : ℚ) + ((6 : Nat) : ℚ)) / ((2 : Nat) : ℚ) ∧
    (aggregateMatchData exC1m []).overview.avgKDA =
      calculateKDA (sumKills exC1m : ℚ) (sumDeaths exC1m : ℚ) (sumAssists exC1m : ℚ) ∧
    exC1stat.avgKDA = calculateKDA (sumKills (matchesOfChamp exC1m exC1stat.championId) : ℚ)
      (sumDeaths (matchesOfChamp exC1m exC1stat.championId) : ℚ)
      (sumAssists (matchesOfChamp exC1m exC1stat.championId) : ℚ) :=
  ⟨c1_kda_formula.2.1 4 2 6 (by decide),
   c1_kda_formula.2.2.1 exC1m [] (by decide),
   c1_kda_formula.2.2.2.1 exC1m [] exC1stat (by with_unfolding_all decide)⟩

/-- C2: aggregating an empty match list, with any masteries list, returns the
fully degenerate `PlayerAnalytics`: all-zero overview, empty champion stats,
empty temporal trends with empty best/worst month, all four performance
metrics `0`, zero streaks with current streak `{win, 0}`, empty role
distribution and four absent highlight matches. -/
theorem c2_empty_aggregate (ms : List EnrichedMastery) :
    aggregateMatchData [] ms =
      { overview :=
          { totalGames := 0, totalWins := 0, totalLosses := 0, winRate := 0,
            avgKDA := 0, avgKills := 0, avgDeaths := 0, avgAssists := 0, totalPlaytime := 0 }
        championStats := []
        temporalTrends :=
          { monthlyWinRate := [], weeklyPerformance := [], bestMonth := "", worstMonth := "" }
        performanceMetrics :=
          { avgVisionScore := some 0, avgDamagePerMinute := some 0,
            avgGoldPerMinute := some 0, avgCSPerMinute := some 0 }
        streaks :=
          { longestWinStreak := 0, longestLossStreak := 0,
            currentStreak := { type := StreakType.win, count := 0 } }
        roleDistribution := []
        highlightMatches :=
          { bestKDA := none, mostKills := none, longestGame := none,
            highestDamage := none } } := rfl

/-- C3: `championStats` is sorted descending by `games`, and entries with
equal `games` keep the relative order of the pre-sort list, which lists
champions in the order their id was first encountered in the match list. -/
theorem c3_championStats_sorted_stable (ml : List MatchDetails) (ms : List EnrichedMastery) :
    List.Sorted gamesGe ((aggregateMatchData ml ms).championStats) ∧
    (∀ g : Nat, ((aggregateMatchData ml ms).championStats).filter (fun c => c.games == g) =
      ((champAccums ml).map (champStatOf (masteryMapOf ms))).filter (fun c => c.games == g)) ∧
    (champAccums ml).map (fun c => c.championId) =
      firstOccurrences (ml.map (fun m => m.participant.championId)) := by
  refine ⟨?_, ?_, champAccums_ids ml⟩
  · rw [aggregate_championStats, championStatsOf]
    exact List.sorted_insertionSort gamesGe _
  · intro g
    rw [aggregate_championStats, championStatsOf]
    refine filter_insertionSort gamesGe _ ?_ _
    intro a b hpa hnr
    have hag : a.games = g := beq_iff_eq.mp hpa
    have hlt : a.games < b.games := by
      have : ¬(b.games ≤ a.games) := hnr
      omega
    exact beq_eq_false_iff_ne.mpr (by omega)

/-- C7: `totalGames` is the number of input matches, wins and losses add up
to it, and the `games` fields of `championStats` sum to it (grouping by
champion id partitions the matches). -/
theorem c7_totals_partition (ml : List MatchDetails) (ms : List EnrichedMastery) :
    (aggregateMatchData ml ms).overview.totalGames = ml.length ∧
    (aggregateMatchData ml ms).overview.totalWins + (aggregateMatchData ml ms).overview.totalLosses
      = (aggregateMatchData ml ms).overview.totalGames ∧
    (((aggregateMatchData ml ms).championStats).map (fun c => c.games)).sum = ml.length := by
  by_cases h : ml.length = 0
  · have h2 := List.length_eq_zero.mp h
    subst h2
    exact ⟨rfl, rfl, rfl⟩
  · have ho := aggregate_overview ml ms h
    refine ⟨by rw [ho], ?_, ?_⟩
    · rw [ho]
      show countWins ml + (ml.length - countWins ml) = ml.length
      have hle := List.length_filter_le (fun m => m.participant.win) ml
      unfold countWins
      omega
    · rw [aggregate_championStats, championStatsOf]
      have hperm := (List.perm_insertionSort gamesGe
        ((champAccums ml).map (champStatOf (masteryMapOf ms)))).map (fun c => c.games)
      rw [hperm.sum_eq, List.map_map]
      have hcomp : ((fun c => c.games) ∘ champStatOf (masteryMapOf ms)) =
          (fun c : ChampAcc => c.games) := rfl
      rw [hcomp]
      exact champAccums_games_sum ml

theorem mem_mapSet {α : Type} {e : Nat × α} {k : Nat} {v : α} : ∀ {A : List (Nat × α)},
    e ∈ mapSet A k v → e = (k, v) ∨ e ∈ A := by
  intro A
  induction A with
  | nil =>
    intro h
    rw [mapSet, List.mem_singleton] at h
    exact Or.inl h
  | cons kv rest ih =>
    intro h
    rw [mapSet] at h
    by_cases hk : kv.1 = k
    · rw [if_pos hk] at h
      rcases List.mem_cons.mp h with rfl | hmem
      · exact Or.inl rfl
      · exact Or.inr (List.mem_cons_of_mem _ hmem)
    · rw [if_neg hk] at h
      rcases List.mem_cons.mp h with rfl | hmem
      · exact Or.inr (List.mem_cons_self _ _)
      · rcases ih hmem with h1 | h2
        · exact Or.inl h1
        · exact Or.inr (List.mem_cons_of_mem _ h2)

theorem mem_masteryMapOf_aux (ms : List EnrichedMastery) :
    ∀ (acc : List (Nat × EnrichedMastery)) (e : Nat × EnrichedMastery),
      e ∈ ms.foldl (fun acc mastery => mapSet acc mastery.championId mastery) acc →
      e ∈ acc ∨ ∃ rec ∈ ms, e.1 = rec.championId := by
  induction ms with
  | nil =>
    intro acc e h
    exact Or.inl h
  | cons rec rest ih =>
    intro acc e h
    rw [List.foldl_cons] at h
    rcases ih _ e h with hmem | ⟨rec2, hrec2, heq⟩
    · rcases mem_mapSet hmem with rfl | h2
      · exact Or.inr ⟨rec, List.mem_cons_self _ _, rfl⟩
      · exact Or.inl h2
    · exact Or.inr ⟨rec2, List.mem_cons_of_mem _ hrec2, heq⟩

theorem mapGet_masteryMapOf_eq_none {ms : List EnrichedMastery} {k : Nat}
    (h : ∀ rec ∈ ms, rec.championId ≠ k) : mapGet (masteryMapOf ms) k = none := by
  rw [mapGet]
  have hfind : (masteryMapOf ms).find? (fun e => e.1 == k) = none := by
    rw [List.find?_eq_none]
    intro e he
    rcases mem_masteryMapOf_aux ms [] e he with h0 | ⟨rec, hrec, heq⟩
    · exact absurd h0 (List.not_mem_nil e)
    · simp only [beq_iff_eq, heq]
      exact h rec hrec
  rw [hfind]
  rfl

/-- C9: a champion present in the matches but absent from the masteries is
not an error: its `championStats` entry simply omits `masteryLevel` and
`masteryPoints` (absent, not defaulted), while a champion whose id is found
in the mastery map gets that record's level and points. -/
theorem c9_optional_mastery_join (ml : List MatchDetails) (ms : List EnrichedMastery)
    (c : ChampionStat) (hc : c ∈ (aggregateMatchData ml ms).championStats) :
    ((∀ rec ∈ ms, rec.championId ≠ c.championId) →
      c.masteryLevel = none ∧ c.masteryPoints = none) ∧
    (∀ rec : EnrichedMastery, mapGet (masteryMapOf ms) c.championId = some rec →
      c.masteryLevel = some rec.championLevel ∧ c.masteryPoints = some rec.championPoints) := by
  rw [aggregate_championStats, mem_championStatsOf] at hc
  obtain ⟨acc, hacc, rfl⟩ := List.mem_map.mp hc
  constructor
  · intro hno
    have hnone : mapGet (masteryMapOf ms) acc.championId = none :=
      mapGet_masteryMapOf_eq_none (fun rec hrec => hno rec hrec)
    constructor
    · show (mapGet (masteryMapOf ms) acc.championId).map (·.championLevel) = none
      rw [hnone]
      rfl
    · show (mapGet (masteryMapOf ms) acc.championId).map (·.championPoints) = none
      rw [hnone]
      rfl
  · intro rec hrec
    have hrec2 : mapGet (masteryMapOf ms) acc.championId = some rec := hrec
    constructor
    · show (mapGet (masteryMapOf ms) acc.championId).map (·.championLevel) = _
      rw [hrec2]
      rfl
    · show (mapGet (masteryMapOf ms) acc.championId).map (·.championPoints) = _
      rw [hrec2]
      rfl

/-- Witness for C9: on `exC9m` with a mastery record for champion 1 only,
the champion-2 entry omits both mastery fields and the champion-1 entry
carries level 7 and 250000 points. -/
theorem c9_optional_mastery_join_witness :
    (exC9statB.masteryLevel = none ∧ exC9statB.masteryPoints = none) ∧
    (exC9statA.masteryLevel = some 7 ∧ exC9statA.masteryPoints = some 250000) := by
  have hacc : champAccums exC9m = [exC9accA, exC9accB] := by decide
  have hmemB : exC9statB ∈ (aggregateMatchData exC9m exC9s).championStats := by
    rw [aggregate_championStats, mem_championStatsOf, hacc]
    exact List.mem_map_of_mem (champStatOf (masteryMapOf exC9s)) (by decide)
  have hmemA : exC9statA ∈ (aggregateMatchData exC9m exC9s).championStats := by
    rw [aggregate_championStats, mem_championStatsOf, hacc]
    exact List.mem_map_of_mem (champStatOf (masteryMapOf exC9s)) (by decide)
  have hB := c9_optional_mastery_join exC9m exC9s exC9statB hmemB
  have hA := c9_optional_mastery_join exC9m exC9s exC9statA hmemA
  exact ⟨hB.1 (by decide), hA.2 ⟨1, 7, 250000⟩ (by decide)⟩

/-- C10: there is a non-empty, data-model-conforming input (every duration
`0`) whose per-minute divisor `sum(gameDuration)/60` is zero; only the empty
list is guarded, so the three per-minute metrics come out non-finite (`none`
in this model, `NaN`/`Infinity` in JavaScript), not the defined value `0`
that the empty branch returns (`some 0`). -/
theorem c10_unguarded_zero_minutes :
    exC10m.length = 1 ∧
    sumDuration exC10m = 0 ∧
    (sumDuration exC10m : ℚ) / 60 = 0 ∧
    sumDamage exC10m = 1000 ∧
    (aggregateMatchData exC10m []).performanceMetrics.avgDamagePerMinute = none ∧
    (aggregateMatchData exC10m []).performanceMetrics.avgGoldPerMinute = none ∧
    (aggregateMatchData exC10m []).performanceMetrics.avgCSPerMinute = none ∧
    (aggregateMatchData [] []).performanceMetrics.avgDamagePerMinute = some 0 ∧
    (aggregateMatchData [] []).performanceMetrics.avgGoldPerMinute = some 0 ∧
    (aggregateMatchData [] []).performanceMetrics.avgCSPerMinute = some 0 := by
  with_unfolding_all decide

/-- C8: for non-empty input the three per-minute metrics are the stat sums
divided by `sum(gameDurationSeconds)/60` (as JavaScript division), while
`avgVisionScore` is divided by the game count (per game, not per minute);
all four are `0` on the empty list. -/
theorem c8_performance_metrics (ml : List MatchDetails) (ms : List EnrichedMastery)
    (h : 0 < ml.length) :
    (aggregateMatchData ml ms).performanceMetrics.avgVisionScore
      = some ((sumVision ml : ℚ) / (ml.length : ℚ)) ∧
    (aggregateMatchData ml ms).performanceMetrics.avgDamagePerMinute
      = jsDiv (sumDamage ml : ℚ) ((sumDuration ml : ℚ) / 60) ∧
    (aggregateMatchData ml ms).performanceMetrics.avgGoldPerMinute
      = jsDiv (sumGold ml : ℚ) ((sumDuration ml : ℚ) / 60) ∧
    (aggregateMatchData ml ms).performanceMetrics.avgCSPerMinute
      = jsDiv (sumCS ml : ℚ) ((sumDuration ml : ℚ) / 60) ∧
    ((sumDuration ml : ℚ) / 60 ≠ 0 →
      (aggregateMatchData ml ms).performanceMetrics.avgDamagePerMinute
        = some ((sumDamage ml : ℚ) / ((sumDuration ml : ℚ) / 60)) ∧
      (aggregateMatchData ml ms).performanceMetrics.avgGoldPerMinute
        = some ((sumGold ml : ℚ) / ((sumDuration ml : ℚ) / 60)) ∧
      (aggregateMatchData ml ms).performanceMetrics.avgCSPerMinute
        = some ((sumCS ml : ℚ) / ((sumDuration ml : ℚ) / 60))) ∧
    (aggregateMatchData [] ms).performanceMetrics
      = { avgVisionScore := some 0, avgDamagePerMinute := some 0,
          avgGoldPerMinute := some 0, avgCSPerMinute := some 0 } := by
  have hlen : ml.length ≠ 0 := by omega
  have hp := aggregate_performanceMetrics ml ms hlen
  refine ⟨?_, by rw [hp], by rw [hp], by rw [hp], ?_, rfl⟩
  · rw [hp]
    show jsDiv _ _ = _
    rw [jsDiv, if_neg (by exact_mod_cast hlen)]
  · intro hmin
    refine ⟨?_, ?_, ?_⟩ <;>
      · rw [hp]
        show jsDiv _ _ = _
        rw [jsDiv, if_neg hmin]

/-- Witness for C8 on a one-match list of duration 1800 seconds. -/
theorem c8_performance_metrics_witness :
    (aggregateMatchData exC1m []).performanceMetrics.avgVisionScore
      = some ((sumVision exC1m : ℚ) / (exC1m.length : ℚ)) ∧
    (aggregateMatchData exC1m []).performanceMetrics.avgDamagePerMinute
      = some ((sumDamage exC1m : ℚ) / ((sumDuration exC1m : ℚ) / 60)) := by
  have h := c8_performance_metrics exC1m [] (by decide)
  exact ⟨h.1, (h.2.2.2.2.1 (by with_unfolding_all decide)).1⟩

/-! ### Characterization of the highlight scanner -/

theorem perMatchKDA_nonneg (m : MatchDetails) : 0 ≤ perMatchKDA m := by
  rw [perMatchKDA, calculateKDA]
  split_ifs
  · positivity
  · positivity

theorem seededMax_concat (f : MatchDetails → ℚ) (l : List MatchDetails) (m : MatchDetails) :
    seededMax f (l ++ [m]) = max (seededMax f l) (f m) := by
  rw [seededMax, seededMax, List.map_append, List.map_cons, List.map_nil, List.foldl_concat]

theorem le_seededMax (f : MatchDetails → ℚ) : ∀ l : List MatchDetails, ∀ m ∈ l,
    f m ≤ seededMax f l := by
  intro l
  induction l using List.reverseRecOn with
  | nil => intro m hm; exact absurd hm (List.not_mem_nil m)
  | append_singleton l m0 ih =>
    intro m hm
    rw [seededMax_concat]
    rcases List.mem_append.mp hm with h | h
    · exact le_trans (ih m h) (le_max_left _ _)
    · rw [List.mem_singleton] at h
      subst h
      exact le_max_right _ _

theorem seededMax_attained (f : MatchDetails → ℚ) : ∀ l : List MatchDetails,
    seededMax f l = -1 ∨ ∃ m ∈ l, f m = seededMax f l := by
  intro l
  induction l using List.reverseRecOn with
  | nil => exact Or.inl rfl
  | append_singleton l m0 ih =>
    rw [seededMax_concat]
    by_cases hc : seededMax f l ≤ f m0
    · rw [max_eq_right hc]
      exact Or.inr ⟨m0, List.mem_append_right l (List.mem_singleton_self m0), rfl⟩
    · push_neg at hc
      rw [max_eq_left hc.le]
      rcases ih with h1 | ⟨m, hm, hfm⟩
      · rw [h1] at hc
        rw [h1]
        exact Or.inl rfl
      · exact Or.inr ⟨m, List.mem_append_left _ hm, hfm⟩

theorem scanMax_spec (f : MatchDetails → ℚ) : ∀ l : List MatchDetails,
    (∀ m ∈ l, 0 ≤ f m) →
    scanMax f l = (l.find? (fun m => decide (f m = seededMax f l)), seededMax f l) := by
  intro l
  induction l using List.reverseRecOn with
  | nil => intro _; rfl
  | append_singleton l m0 ih =>
    intro h0
    have h0l : ∀ m ∈ l, 0 ≤ f m := fun m hm => h0 m (List.mem_append_left _ hm)
    have h0m : 0 ≤ f m0 := h0 m0 (List.mem_append_right l (List.mem_singleton_self m0))
    have hstep : scanMax f (l ++ [m0]) =
        if f m0 > (scanMax f l).2 then (some m0, f m0) else scanMax f l := by
      rw [scanMax, scanMax, List.foldl_concat]
    rw [hstep, ih h0l]
    by_cases hgt : f m0 > seededMax f l
    · rw [if_pos hgt]
      have hmax : seededMax f (l ++ [m0]) = f m0 := by
        rw [seededMax_concat]
        exact max_eq_right hgt.le
      rw [hmax]
      have hnone : l.find? (fun m => decide (f m = f m0)) = none := by
        rw [List.find?_eq_none]
        intro x hx
        have := le_seededMax f l x hx
        simp only [decide_eq_true_eq]
        intro heq
        rw [heq] at this
        exact absurd this (not_le.mpr hgt)
      rw [List.find?_append, hnone]
      have : List.find? (fun m => decide (f m = f m0)) [m0] = some m0 := by
        simp [List.find?]
      rw [this]
      rfl
    · rw [if_neg hgt]
      push_neg at hgt
      have hmax : seededMax f (l ++ [m0]) = seededMax f l := by
        rw [seededMax_concat]
        exact max_eq_left hgt
      rw [hmax]
      have hattained : ∃ m ∈ l, f m = seededMax f l := by
        rcases seededMax_attained f l with h1 | h2
        · exfalso
          rw [h1] at hgt
          have : (0:ℚ) ≤ -1 := le_trans h0m hgt
          norm_num at this
        · exact h2
      have hsome : (l.find? (fun m => decide (f m = seededMax f l))).isSome = true := by
        rw [List.find?_isSome]
        obtain ⟨m, hm, hfm⟩ := hattained
        exact ⟨m, hm, by simp [hfm]⟩
      obtain ⟨y, hy⟩ := Option.isSome_iff_exists.mp hsome
      rw [List.find?_append, hy]
      rfl

theorem highlightAcc_bestKDA_spec (l : List MatchDetails) :
    (highlightAcc l).bestKDA = (scanMax perMatchKDA l).1 ∧
    (highlightAcc l).bestKDAValue = (scanMax perMatchKDA l).2 := by
  induction l using List.reverseRecOn with
  | nil => exact ⟨rfl, rfl⟩
  | append_singleton l m ih =>
    have hstep : highlightAcc (l ++ [m]) = highlightStep (highlightAcc l) m := by
      rw [highlightAcc, highlightAcc, List.foldl_concat]
    have hscan : scanMax perMatchKDA (l ++ [m]) =
        if perMatchKDA m > (scanMax perMatchKDA l).2 then (some m, perMatchKDA m)
        else scanMax perMatchKDA l := by
      rw [scanMax, scanMax, List.foldl_concat]
    rw [hstep, highlightStep_bestKDA, highlightStep_bestKDAValue, ih.1, ih.2, hscan]
    split_ifs <;> exact ⟨rfl, rfl⟩

theorem highlightAcc_mostKills_spec (l : List MatchDetails) :
    (highlightAcc l).mostKills = (scanMax (fun m => (m.participant.kills : ℚ)) l).1 ∧
    (highlightAcc l).mostKillsValue = (scanMax (fun m => (m.participant.kills : ℚ)) l).2 := by
  induction l using List.reverseRecOn with
  | nil => exact ⟨rfl, rfl⟩
  | append_singleton l m ih =>
    have hstep : highlightAcc (l ++ [m]) = highlightStep (highlightAcc l) m := by
      rw [highlightAcc, highlightAcc, List.foldl_concat]
    have hscan : scanMax (fun m => (m.participant.kills : ℚ)) (l ++ [m]) =
        if (m.participant.kills : ℚ) > (scanMax (fun m => (m.participant.kills : ℚ)) l).2 then
          (some m, (m.participant.kills : ℚ))
        else scanMax (fun m => (m.participant.kills : ℚ)) l := by
      rw [scanMax, scanMax, List.foldl_concat]
    rw [hstep, highlightStep_mostKills, highlightStep_mostKillsValue, ih.1, ih.2, hscan]
    split_ifs <;> exact ⟨rfl, rfl⟩

theorem highlightAcc_longestGame_spec (l : List MatchDetails) :
    (highlightAcc l).longestGame = (scanMax (fun m => (m.gameDuration : ℚ)) l).1 ∧
    (highlightAcc l).longestGameDuration = (scanMax (fun m => (m.gameDuration : ℚ)) l).2 := by
  induction l using List.reverseRecOn with
  | nil => exact ⟨rfl, rfl⟩
  | append_singleton l m ih =>
    have hstep : highlightAcc (l ++ [m]) = highlightStep (highlightAcc l) m := by
      rw [highlightAcc, highlightAcc, List.foldl_concat]
    have hscan : scanMax (fun m => (m.gameDuration : ℚ)) (l ++ [m]) =
        if (m.gameDuration : ℚ) > (scanMax (fun m => (m.gameDuration : ℚ)) l).2 then
          (some m, (m.gameDuration : ℚ))
        else scanMax (fun m => (m.gameDuration : ℚ)) l := by
      rw [scanMax, scanMax, List.foldl_concat]
    rw [hstep, highlightStep_longestGame, highlightStep_longestGameDuration, ih.1, ih.2, hscan]
    split_ifs <;> exact ⟨rfl, rfl⟩

theorem highlightAcc_highestDamage_spec (l : List MatchDetails) :
    (highlightAcc l).highestDamage =
      (scanMax (fun m => (m.participant.totalDamageDealt : ℚ)) l).1 ∧
    (highlightAcc l).highestDamageValue =
      (scanMax (fun m => (m.participant.totalDamageDealt : ℚ)) l).2 := by
  induction l using List.reverseRecOn with
  | nil => exact ⟨rfl, rfl⟩
  | append_singleton l m ih =>
    have hstep : highlightAcc (l ++ [m]) = highlightStep (highlightAcc l) m := by
      rw [highlightAcc, highlightAcc, List.foldl_concat]
    have hscan : scanMax (fun m => (m.participant.totalDamageDealt : ℚ)) (l ++ [m]) =
        if (m.participant.totalDamageDealt : ℚ) >
            (scanMax (fun m => (m.participant.totalDamageDealt : ℚ)) l).2 then
          (some m, (m.participant.totalDamageDealt : ℚ))
        else scanMax (fun m => (m.participant.totalDamageDealt : ℚ)) l := by
      rw [scanMax, scanMax, List.foldl_concat]
    rw [hstep, highlightStep_highestDamage, highlightStep_highestDamageValue, ih.1, ih.2, hscan]
    split_ifs <;> exact ⟨rfl, rfl⟩

theorem aggregate_bestKDA_find (ml : List MatchDetails) (ms : List EnrichedMastery) :
    (aggregateMatchData ml ms).highlightMatches.bestKDA =
      ml.find? (fun m => decide (perMatchKDA m = seededMax perMatchKDA ml)) := by
  rw [aggregate_highlights]
  show (highlightAcc ml).bestKDA = _
  rw [(highlightAcc_bestKDA_spec ml).1,
    scanMax_spec perMatchKDA ml (fun m _ => perMatchKDA_nonneg m)]

theorem aggregate_mostKills_find (ml : List MatchDetails) (ms : List EnrichedMastery) :
    (aggregateMatchData ml ms).highlightMatches.mostKills =
      ml.find? (fun m => decide ((m.participant.kills : ℚ) =
        seededMax (fun m => (m.participant.kills : ℚ)) ml)) := by
  rw [aggregate_highlights]
  show (highlightAcc ml).mostKills = _
  rw [(highlightAcc_mostKills_spec ml).1,
    scanMax_spec _ ml (fun m _ => Nat.cast_nonneg m.participant.kills)]

theorem aggregate_longestGame_find (ml : List MatchDetails) (ms : List EnrichedMastery) :
    (aggregateMatchData ml ms).highlightMatches.longestGame =
      ml.find? (fun m => decide ((m.gameDuration : ℚ) =
        seededMax (fun m => (m.gameDuration : ℚ)) ml)) := by
  rw [aggregate_highlights]
  show (highlightAcc ml).longestGame = _
  rw [(highlightAcc_longestGame_spec ml).1,
    scanMax_spec _ ml (fun m _ => Nat.cast_nonneg m.gameDuration)]

theorem aggregate_highestDamage_find (ml : List MatchDetails) (ms : List EnrichedMastery) :
    (aggregateMatchData ml ms).highlightMatches.highestDamage =
      ml.find? (fun m => decide ((m.participant.totalDamageDealt : ℚ) =
        seededMax (fun m => (m.participant.totalDamageDealt : ℚ)) ml)) := by
  rw [aggregate_highlights]
  show (highlightAcc ml).highestDamage = _
  rw [(highlightAcc_highestDamage_spec ml).1,
    scanMax_spec _ ml (fun m _ => Nat.cast_nonneg m.participant.totalDamageDealt)]

/-- C6: each of the four highlights is the first match of the input attaining
the seeded (`-1`) strict maximum of its metric, so the first match always
wins the initial comparison and ties go to the earliest match; with zero
matches all four are absent; on two matches sharing the highest kill count,
`mostKills` is the earlier one. -/
theorem c6_highlight_first_max (ml : List MatchDetails) (ms : List EnrichedMastery) :
    (aggregateMatchData ml ms).highlightMatches.bestKDA =
      ml.find? (fun m => decide (perMatchKDA m = seededMax perMatchKDA ml)) ∧
    (aggregateMatchData ml ms).highlightMatches.mostKills =
      ml.find? (fun m => decide ((m.participant.kills : ℚ) =
        seededMax (fun m => (m.participant.kills : ℚ)) ml)) ∧
    (aggregateMatchData ml ms).highlightMatches.longestGame =
      ml.find? (fun m => decide ((m.gameDuration : ℚ) =
        seededMax (fun m => (m.gameDuration : ℚ)) ml)) ∧
    (aggregateMatchData ml ms).highlightMatches.highestDamage =
      ml.find? (fun m => decide ((m.participant.totalDamageDealt : ℚ) =
        seededMax (fun m => (m.participant.totalDamageDealt : ℚ)) ml)) ∧
    (aggregateMatchData [] ms).highlightMatches =
      { bestKDA := none, mostKills := none, longestGame := none, highestDamage := none } ∧
    (aggregateMatchData exC6m []).highlightMatches.mostKills =
      some ⟨"k-early", 100, 1200, ⟨1, "A", 7, 2, 1, true, 10, 5000, 800, 30, "TOP"⟩⟩ := by
  refine ⟨aggregate_bestKDA_find ml ms, aggregate_mostKills_find ml ms,
    aggregate_longestGame_find ml ms, aggregate_highestDamage_find ml ms, rfl, ?_⟩
  rw [aggregate_mostKills_find]
  have h7 : seededMax (fun m => (m.participant.kills : ℚ)) exC6m = 7 := by
    with_unfolding_all decide
  simp only [h7, exC6m]
  rw [List.find?_cons_of_pos]
  rw [decide_eq_true_eq]
  norm_num
  rw [← h7]
  rfl

/-! ### Characterization of the streak detector -/

theorem trailingRun_concat (b : Bool) (l : List Bool) (c : Bool) :
    trailingRun b (l ++ [c]) = if c == b then trailingRun b l + 1 else 0 := by
  rw [trailingRun, trailingRun, List.reverse_append]
  show (List.takeWhile (fun x => x == b) (c :: l.reverse)).length = _
  rw [List.takeWhile_cons]
  by_cases h : (c == b) = true
  · rw [if_pos h, if_pos h, List.length_cons]
  · rw [if_neg h, if_neg h, List.length_nil]

theorem prefix_replicate_iff (b : Bool) : ∀ (n : Nat) (r : List Bool),
    List.replicate n b <+: r ↔ n ≤ (r.takeWhile (fun x => x == b)).length := by
  intro n
  induction n with
  | zero =>
    intro r
    simp [List.replicate]
  | succ k ih =>
    intro r
    cases r with
    | nil =>
      constructor
      · rintro ⟨t, ht⟩
        have h3 := congrArg List.length ht
        rw [List.length_append, List.length_replicate] at h3
        simp only [List.length_nil] at h3
        omega
      · intro h
        simp at h
    | cons c t =>
      rw [List.replicate_succ, List.cons_prefix_cons, List.takeWhile_cons]
      by_cases h : (c == b) = true
      · have hb : b = c := (beq_iff_eq.mp h).symm
        rw [if_pos h, List.length_cons]
        constructor
        · rintro ⟨-, h2⟩
          exact Nat.succ_le_succ ((ih t).mp h2)
        · intro h2
          exact ⟨hb, (ih t).mpr (Nat.le_of_succ_le_succ h2)⟩
      · rw [if_neg h, List.length_nil]
        constructor
        · rintro ⟨rfl, -⟩
          exact absurd (beq_self_eq_true b) h
        · intro h2
          exact absurd h2 (by omega)

theorem suffix_replicate_iff (b : Bool) (n : Nat) (l : List Bool) :
    List.replicate n b <:+ l ↔ n ≤ trailingRun b l := by
  rw [← List.reverse_prefix, List.reverse_replicate]
  exact prefix_replicate_iff b n l.reverse

theorem infix_concat_iff (t l : List Bool) (c : Bool) :
    t <:+: (l ++ [c]) ↔ t <:+: l ∨ t <:+ (l ++ [c]) := by
  constructor
  · intro h
    have h2 : t.reverse <:+: (c :: l.reverse) := by
      have h3 := List.reverse_infix.mpr h
      simpa using h3
    rcases List.infix_cons_iff.mp h2 with hpre | hinf
    · right
      have h4 : t.reverse <+: (l ++ [c]).reverse := by
        simpa using hpre
      exact List.reverse_prefix.mp h4
    · left
      exact List.reverse_infix.mp hinf
  · rintro (h | h)
    · exact h.trans (List.prefix_append l [c]).isInfix
    · exact h.isInfix

theorem streakFold_spec : ∀ l : List Bool,
    (l.foldl streakStep ⟨0, 0, 0, 0⟩).curW = trailingRun true l ∧
    (l.foldl streakStep ⟨0, 0, 0, 0⟩).curL = trailingRun false l ∧
    List.replicate (l.foldl streakStep ⟨0, 0, 0, 0⟩).longW true <:+: l ∧
    (∀ n, List.replicate n true <:+: l → n ≤ (l.foldl streakStep ⟨0, 0, 0, 0⟩).longW) ∧
    List.replicate (l.foldl streakStep ⟨0, 0, 0, 0⟩).longL false <:+: l ∧
    (∀ n, List.replicate n false <:+: l → n ≤ (l.foldl streakStep ⟨0, 0, 0, 0⟩).longL) := by
  intro l
  induction l using List.reverseRecOn with
  | nil =>
    refine ⟨rfl, rfl, by simp, ?_, by simp, ?_⟩ <;>
      · intro n hn
        have h2 := congrArg List.length (List.infix_nil.mp hn)
        simp at h2
        omega
  | append_singleton l c ih =>
    obtain ⟨ihW, ihL, ihLW1, ihLW2, ihLL1, ihLL2⟩ := ih
    have hstep : (l ++ [c]).foldl streakStep ⟨0, 0, 0, 0⟩ =
        streakStep (l.foldl streakStep ⟨0, 0, 0, 0⟩) c := List.foldl_concat _ _ _ _
    cases c
    · -- c = false: a loss
      rw [hstep]
      have hsf : streakStep (l.foldl streakStep ⟨0, 0, 0, 0⟩) false =
          ⟨(l.foldl streakStep ⟨0, 0, 0, 0⟩).longW,
           max (l.foldl streakStep ⟨0, 0, 0, 0⟩).longL
             ((l.foldl streakStep ⟨0, 0, 0, 0⟩).curL + 1),
           0, (l.foldl streakStep ⟨0, 0, 0, 0⟩).curL + 1⟩ := rfl
      rw [hsf]
      refine ⟨?_, ?_, ?_, ?_, ?_, ?_⟩
      · show (0 : Nat) = trailingRun true (l ++ [false])
        rw [trailingRun_concat]
        simp
      · show (l.foldl streakStep ⟨0, 0, 0, 0⟩).curL + 1 = trailingRun false (l ++ [false])
        rw [trailingRun_concat, if_pos (beq_self_eq_true false), ihL]
      · exact ihLW1.trans (List.prefix_append l [false]).isInfix
      · intro n hn
        rcases (infix_concat_iff _ _ _).mp hn with hi | hsuf
        · exact ihLW2 n hi
        · have h2 := (suffix_replicate_iff true n (l ++ [false])).mp hsuf
          rw [trailingRun_concat] at h2
          simp at h2
          omega
      · by_cases hm : (l.foldl streakStep ⟨0, 0, 0, 0⟩).curL + 1 ≤
            (l.foldl streakStep ⟨0, 0, 0, 0⟩).longL
        · rw [max_eq_left hm]
          exact ihLL1.trans (List.prefix_append l [false]).isInfix
        · rw [max_eq_right (by omega)]
          refine List.IsSuffix.isInfix ?_
          rw [suffix_replicate_iff, trailingRun_concat, if_pos (beq_self_eq_true false), ihL]
      · intro n hn
        rcases (infix_concat_iff _ _ _).mp hn with hi | hsuf
        · exact le_trans (ihLL2 n hi) (le_max_left _ _)
        · have h2 := (suffix_replicate_iff false n (l ++ [false])).mp hsuf
          rw [trailingRun_concat, if_pos (beq_self_eq_true false)] at h2
          rw [← ihL] at h2
          exact le_trans h2 (le_max_right _ _)
    · -- c = true: a win
      rw [hstep]
      have hsf : streakStep (l.foldl streakStep ⟨0, 0, 0, 0⟩) true =
          ⟨max (l.foldl streakStep ⟨0, 0, 0, 0⟩).longW
             ((l.foldl streakStep ⟨0, 0, 0, 0⟩).curW + 1),
           (l.foldl streakStep ⟨0, 0, 0, 0⟩).longL,
           (l.foldl streakStep ⟨0, 0, 0, 0⟩).curW + 1, 0⟩ := rfl
      rw [hsf]
      refine ⟨?_, ?_, ?_, ?_, ?_, ?_⟩
      · show (l.foldl streakStep ⟨0, 0, 0, 0⟩).curW + 1 = trailingRun true (l ++ [true])
        rw [trailingRun_concat, if_pos (beq_self_eq_true true), ihW]
      · show (0 : Nat) = trailingRun false (l ++ [true])
        rw [trailingRun_concat]
        simp
      · by_cases hm : (l.foldl streakStep ⟨0, 0, 0, 0⟩).curW + 1 ≤
            (l.foldl streakStep ⟨0, 0, 0, 0⟩).longW
        · rw [max_eq_left hm]
          exact ihLW1.trans (List.prefix_append l [true]).isInfix
        · rw [max_eq_right (by omega)]
          refine List.IsSuffix.isInfix ?_
          rw [suffix_replicate_iff, trailingRun_concat, if_pos (beq_self_eq_true true), ihW]
      · intro n hn
        rcases (infix_concat_iff _ _ _).mp hn with hi | hsuf
        · exact le_trans (ihLW2 n hi) (le_max_left _ _)
        · have h2 := (suffix_replicate_iff true n (l ++ [true])).mp hsuf
          rw [trailingRun_concat, if_pos (beq_self_eq_true true)] at h2
          rw [← ihW] at h2
          exact le_trans h2 (le_max_right _ _)
      · exact ihLL1.trans (List.prefix_append l [true]).isInfix
      · intro n hn
        rcases (infix_concat_iff _ _ _).mp hn with hi | hsuf
        · exact ihLL2 n hi
        · have h2 := (suffix_replicate_iff false n (l ++ [true])).mp hsuf
          rw [trailingRun_concat] at h2
          simp at h2
          omega

theorem calculateStreaks_of_ne {ml : List MatchDetails} (h : ml.length ≠ 0) :
    calculateStreaks ml =
      { longestWinStreak := (((List.insertionSort creationLe ml).map
          (fun m => m.participant.win)).foldl streakStep ⟨0, 0, 0, 0⟩).longW
        longestLossStreak := (((List.insertionSort creationLe ml).map
          (fun m => m.participant.win)).foldl streakStep ⟨0, 0, 0, 0⟩).longL
        currentStreak :=
          if 0 < (((List.insertionSort creationLe ml).map
              (fun m => m.participant.win)).foldl streakStep ⟨0, 0, 0, 0⟩).curW then
            { type := StreakType.win,
              count := (((List.insertionSort creationLe ml).map
                (fun m => m.participant.win)).foldl streakStep ⟨0, 0, 0, 0⟩).curW }
          else
            { type := StreakType.loss,
              count := (((List.insertionSort creationLe ml).map
                (fun m => m.participant.win)).foldl streakStep ⟨0, 0, 0, 0⟩).curL } } := by
  simp only [calculateStreaks, if_neg h]

/-- C4: the streak detector sorts defensively by `gameCreation` ascending;
`longestWinStreak` / `longestLossStreak` are the greatest lengths of
consecutive-win / consecutive-loss runs of the chronological win sequence;
`currentStreak` is the trailing run, reported as a win streak when the
trailing win counter is positive and as a loss streak otherwise; the
chronological sequence W, W, L, W yields `(2, 1, {win, 1})` (here supplied
out of order, exercising the defensive sort), and zero matches yield
`{win, 0}`. -/
theorem c4_streak_detector (ml : List MatchDetails) :
    List.Sorted creationLe (List.insertionSort creationLe ml) ∧
    List.replicate (calculateStreaks ml).longestWinStreak true <:+:
      ((List.insertionSort creationLe ml).map (fun m => m.participant.win)) ∧
    (∀ n, List.replicate n true <:+:
        ((List.insertionSort creationLe ml).map (fun m => m.participant.win)) →
      n ≤ (calculateStreaks ml).longestWinStreak) ∧
    List.replicate (calculateStreaks ml).longestLossStreak false <:+:
      ((List.insertionSort creationLe ml).map (fun m => m.participant.win)) ∧
    (∀ n, List.replicate n false <:+:
        ((List.insertionSort creationLe ml).map (fun m => m.participant.win)) →
      n ≤ (calculateStreaks ml).longestLossStreak) ∧
    (∀ (n : Nat) (b : Bool), List.replicate n b <:+
        ((List.insertionSort creationLe ml).map (fun m => m.participant.win)) ↔
      n ≤ trailingRun b ((List.insertionSort creationLe ml).map (fun m => m.participant.win))) ∧
    (0 < ml.length → (calculateStreaks ml).currentStreak =
      if 0 < trailingRun true
          ((List.insertionSort creationLe ml).map (fun m => m.participant.win)) then
        { type := StreakType.win,
          count := trailingRun true
            ((List.insertionSort creationLe ml).map (fun m => m.participant.win)) }
      else
        { type := StreakType.loss,
          count := trailingRun false
            ((List.insertionSort creationLe ml).map (fun m => m.participant.win)) }) ∧
    calculateStreaks [] =
      { longestWinStreak := 0, longestLossStreak := 0,
        currentStreak := { type := StreakType.win, count := 0 } } ∧
    calculateStreaks exC4m =
      { longestWinStreak := 2, longestLossStreak := 1,
        currentStreak := { type := StreakType.win, count := 1 } } := by
  obtain ⟨hW, hL, hLW1, hLW2, hLL1, hLL2⟩ :=
    streakFold_spec ((List.insertionSort creationLe ml).map (fun m => m.participant.win))
  by_cases h : ml.length = 0
  · have h2 := List.length_eq_zero.mp h
    subst h2
    refine ⟨List.sorted_insertionSort _ _, hLW1, hLW2, hLL1, hLL2,
      fun n b => suffix_replicate_iff b n _, ?_, rfl, by decide⟩
    intro h0
    exact absurd h0 (by simp)
  · have hcs := calculateStreaks_of_ne h
    refine ⟨List.sorted_insertionSort _ _, ?_, ?_, ?_, ?_,
      fun n b => suffix_replicate_iff b n _, ?_, rfl, by decide⟩
    · rw [hcs]
      exact hLW1
    · intro n hn
      rw [hcs]
      exact hLW2 n hn
    · rw [hcs]
      exact hLL1
    · intro n hn
      rw [hcs]
      exact hLL2 n hn
    · intro h0
      rw [hcs]
      show (if 0 < _ then _ else _) = _
      rw [hW, hL]

/-- Witness for C4 at the out-of-order four-match input: the theorem's
current-streak rule and run maximality applied at `exC4m`. -/
theorem c4_streak_detector_witness :
    (calculateStreaks exC4m).currentStreak = { type := StreakType.win, count := 1 } ∧
    2 ≤ (calculateStreaks exC4m).longestWinStreak := by
  have h := c4_streak_detector exC4m
  have hcur := h.2.2.2.2.2.2.1 (by decide)
  constructor
  · rw [hcur]
    decide
  · exact h.2.2.1 2 (by decide)

/-! ### Best/worst month selection -/

theorem sorted_head_rel {α : Type} {r : α → α → Prop} {l : List α} (hs : List.Sorted r l)
    (hne : l ≠ []) : ∀ x ∈ l, x = l.head hne ∨ r (l.head hne) x := by
  cases l with
  | nil => exact absurd rfl hne
  | cons a t =>
    intro x hx
    rcases List.mem_cons.mp hx with rfl | hx2
    · exact Or.inl rfl
    · exact Or.inr (List.rel_of_sorted_cons hs x hx2)

theorem sorted_rel_getLast {α : Type} {r : α → α → Prop} : ∀ {l : List α}, List.Sorted r l →
    ∀ (hne : l ≠ []), ∀ x ∈ l, x = l.getLast hne ∨ r x (l.getLast hne) := by
  intro l
  induction l with
  | nil => intro _ hne; exact absurd rfl hne
  | cons a t ih =>
    intro hs hne x hx
    cases t with
    | nil =>
      rcases List.mem_cons.mp hx with rfl | hx2
      · exact Or.inl rfl
      · exact absurd hx2 (List.not_mem_nil x)
    | cons b t2 =>
      have hgl : (a :: b :: t2).getLast hne = (b :: t2).getLast (by simp) := by
        rw [List.getLast_cons]
      rcases List.mem_cons.mp hx with rfl | hx2
      · rw [hgl]
        exact Or.inr (List.rel_of_sorted_cons hs _ (List.getLast_mem _))
      · rw [hgl]
        exact ih (List.sorted_cons.mp hs).2 (by simp) x hx2

theorem temporal_monthly (ml : List MatchDetails) :
    (calculateTemporalTrends ml).monthlyWinRate = monthlyWinRateOf ml := by
  by_cases h : ml.length = 0
  · have h2 := List.length_eq_zero.mp h
    subst h2
    rfl
  · simp only [calculateTemporalTrends, if_neg h]

theorem temporal_best (ml : List MatchDetails) :
    (calculateTemporalTrends ml).bestMonth = bestMonthOf ml := by
  by_cases h : ml.length = 0
  · have h2 := List.length_eq_zero.mp h
    subst h2
    rfl
  · simp only [calculateTemporalTrends, if_neg h]

theorem temporal_worst (ml : List MatchDetails) :
    (calculateTemporalTrends ml).worstMonth = worstMonthOf ml := by
  by_cases h : ml.length = 0
  · have h2 := List.length_eq_zero.mp h
    subst h2
    rfl
  · simp only [calculateTemporalTrends, if_neg h]

/-- C5 (amended): `bestMonth`/`worstMonth` are drawn only from months with at
least 5 games; `bestMonth` attains the highest and `worstMonth` the lowest
win rate among them; both are empty when no month qualifies; ties are
resolved through one stable sort by win rate descending, `bestMonth` being
its first and `worstMonth` its last element (for tied lowest win rates this
is the qualifying month latest in month order, not the earliest as the
original claim's ascending-sort rule would give). -/
theorem c5_best_worst_months (ml : List MatchDetails) :
    ((significantMonthsOf ml).length = 0 →
      (calculateTemporalTrends ml).bestMonth = "" ∧
      (calculateTemporalTrends ml).worstMonth = "") ∧
    (0 < (significantMonthsOf ml).length →
      (∃ b ∈ significantMonthsOf ml, (calculateTemporalTrends ml).bestMonth = b.month ∧
        5 ≤ b.games ∧ ∀ mo ∈ significantMonthsOf ml, mo.winRate ≤ b.winRate) ∧
      (∃ w ∈ significantMonthsOf ml, (calculateTemporalTrends ml).worstMonth = w.month ∧
        5 ≤ w.games ∧ ∀ mo ∈ significantMonthsOf ml, w.winRate ≤ mo.winRate)) ∧
    significantMonthsOf ml =
      ((calculateTemporalTrends ml).monthlyWinRate).filter (fun m => 5 ≤ m.games) ∧
    (calculateTemporalTrends ml).bestMonth =
      (if 0 < (significantMonthsOf ml).length then
        (((sortedSignificantOf ml).head?).map (fun m => m.month)).getD "" else "") ∧
    (calculateTemporalTrends ml).worstMonth =
      (if 0 < (significantMonthsOf ml).length then
        (((sortedSignificantOf ml).getLast?).map (fun m => m.month)).getD "" else "") := by
  have hperm := List.perm_insertionSort winRateGe (significantMonthsOf ml)
  refine ⟨?_, ?_, ?_, temporal_best ml, temporal_worst ml⟩
  · intro h0
    rw [temporal_best, temporal_worst, bestMonthOf, worstMonthOf,
      if_neg (by omega), if_neg (by omega)]
    exact ⟨rfl, rfl⟩
  · intro hlen
    have hne : sortedSignificantOf ml ≠ [] := by
      intro hnil
      have := hperm.length_eq
      rw [sortedSignificantOf] at hnil
      rw [hnil] at this
      simp at this
      omega
    have hsorted : List.Sorted winRateGe (sortedSignificantOf ml) :=
      List.sorted_insertionSort winRateGe (significantMonthsOf ml)
    constructor
    · refine ⟨(sortedSignificantOf ml).head hne, ?_, ?_, ?_, ?_⟩
      · exact hperm.mem_iff.mp (List.head_mem hne)
      · rw [temporal_best, bestMonthOf, if_pos hlen, List.head?_eq_head hne]
        rfl
      · have hmem : (sortedSignificantOf ml).head hne ∈ significantMonthsOf ml :=
          hperm.mem_iff.mp (List.head_mem hne)
        rw [significantMonthsOf] at hmem
        have := List.of_mem_filter hmem
        exact of_decide_eq_true this
      · intro mo hmo
        have hmo2 : mo ∈ sortedSignificantOf ml := hperm.mem_iff.mpr hmo
        rcases sorted_head_rel hsorted hne mo hmo2 with rfl | hrel
        · exact le_refl _
        · exact hrel
    · refine ⟨(sortedSignificantOf ml).getLast hne, ?_, ?_, ?_, ?_⟩
      · exact hperm.mem_iff.mp (List.getLast_mem hne)
      · rw [temporal_worst, worstMonthOf, if_pos hlen, List.getLast?_eq_getLast _ hne]
        rfl
      · have hmem : (sortedSignificantOf ml).getLast hne ∈ significantMonthsOf ml :=
          hperm.mem_iff.mp (List.getLast_mem hne)
        rw [significantMonthsOf] at hmem
        have := List.of_mem_filter hmem
        exact of_decide_eq_true this
      · intro mo hmo
        have hmo2 : mo ∈ sortedSignificantOf ml := hperm.mem_iff.mpr hmo
        rcases sorted_rel_getLast hsorted hne mo hmo2 with rfl | hrel
        · exact le_refl _
        · exact hrel
  · rw [temporal_monthly]
    rfl

theorem exC5_monthAccums : monthAccums exC5m = [("2024-01", 5, 2), ("2024-02", 5, 2)] := by
  decide

theorem exC5_monthlyWinRate : monthlyWinRateOf exC5m =
    [monthDataOf ("2024-01", 5, 2), monthDataOf ("2024-02", 5, 2)] := by
  rw [monthlyWinRateOf, exC5_monthAccums]
  show List.orderedInsert monthLe (monthDataOf ("2024-01", 5, 2))
      (List.orderedInsert monthLe (monthDataOf ("2024-02", 5, 2)) []) = _
  rw [List.orderedInsert_nil]
  exact List.orderedInsert_of_le monthLe _ (by with_unfolding_all decide)

theorem exC5_significantMonths : significantMonthsOf exC5m =
    [monthDataOf ("2024-01", 5, 2), monthDataOf ("2024-02", 5, 2)] := by
  rw [significantMonthsOf, exC5_monthlyWinRate]
  rfl

theorem exC5_sortedSignificant : sortedSignificantOf exC5m =
    [monthDataOf ("2024-01", 5, 2), monthDataOf ("2024-02", 5, 2)] := by
  rw [sortedSignificantOf, exC5_significantMonths]
  show List.orderedInsert winRateGe (monthDataOf ("2024-01", 5, 2))
      (List.orderedInsert winRateGe (monthDataOf ("2024-02", 5, 2)) []) = _
  rw [List.orderedInsert_nil]
  exact List.orderedInsert_of_le winRateGe _ (le_refl _)

/-- Counterexample to C5 as stated: on ten matches forming two significant
months tied at 40% win rate, the claimed rule (first after a stable sort by
win rate ascending) names January, but the engine (last after its stable
sort by win rate descending) returns February. -/
theorem c5_counterexample_worst_tie :
    claimWorstMonthRule exC5m = "2024-01" ∧
    (calculateTemporalTrends exC5m).worstMonth = "2024-02" ∧
    (((calculateTemporalTrends exC5m).worstMonth == claimWorstMonthRule exC5m) = false) := by
  have h5 : (calculateTemporalTrends exC5m).worstMonth = "2024-02" := by
    rw [temporal_worst]
    unfold worstMonthOf
    rw [if_pos (by rw [exC5_significantMonths]; decide), exC5_sortedSignificant]
    rfl
  have h6 : claimWorstMonthRule exC5m = "2024-01" := by
    simp only [claimWorstMonthRule]
    rw [temporal_monthly, exC5_monthlyWinRate]
    show (((List.orderedInsert winRateLe (monthDataOf ("2024-01", 5, 2))
        (List.orderedInsert winRateLe (monthDataOf ("2024-02", 5, 2)) [])).head?).map
          (fun m => m.month)).getD "" = "2024-01"
    rw [List.orderedInsert_nil]
    have hins : List.orderedInsert winRateLe (monthDataOf ("2024-01", 5, 2))
        [monthDataOf ("2024-02", 5, 2)] =
        [monthDataOf ("2024-01", 5, 2), monthDataOf ("2024-02", 5, 2)] :=
      List.orderedInsert_of_le winRateLe _
        (show winRateLe (monthDataOf ("2024-01", 5, 2)) (monthDataOf ("2024-02", 5, 2)) from
          le_refl _)
    rw [hins]
    rfl
  refine ⟨h6, h5, ?_⟩
  rw [h5, h6]
  decide

/-- Witness for the amended C5: no significant month on the four-match input
gives empty best/worst months, and the ten-match input has a best month
attaining the maximal win rate among significant months. -/
theorem c5_best_worst_months_witness :
    ((calculateTemporalTrends exC4m).bestMonth = "" ∧
      (calculateTemporalTrends exC4m).worstMonth = "") ∧
    (∃ b ∈ significantMonthsOf exC5m, (calculateTemporalTrends exC5m).bestMonth = b.month ∧
      5 ≤ b.games ∧ ∀ mo ∈ significantMonthsOf exC5m, mo.winRate ≤ b.winRate) :=
  ⟨(c5_best_worst_months exC4m).1 (by decide),
   ((c5_best_worst_months exC5m).2.1
     (by rw [exC5_significantMonths]; decide)).1⟩

end RiftDuoCoach
